import Mathlib

/-!
Verification development for the N-xport data tool: a shallow embedding of
the frontend run-request handlers (App.tsx) and of the cross-server
migration engine described in the design document, together with theorems
settling the specification claims.
-/

/-! ## Entity catalog -/

/-- The enumerable entity-type tag of the data model (spec section 3). -/
inductive EntityType
  | customer
  | site
  | device
  | accessGroup
  | userRole
  | user
  | orgProperty
  | deviceProperty
deriving DecidableEq, Repr

/-- Modelled from the spec: the entity catalog lives in the Rust backend
(src-tauri), which is not among the sources; `dependencyRank` follows the
fixed order Customer < Site < AccessGroup < UserRole < User <
(OrgProperty, DeviceProperty) given in spec section 3. Device is
export-only and is given a rank outside the migration order. -/
def dependencyRank : EntityType → Nat
  | .customer => 0
  | .site => 1
  | .accessGroup => 2
  | .userRole => 3
  | .user => 4
  | .orgProperty => 5
  | .deviceProperty => 5
  | .device => 100

/-- Modelled from the spec: the migratable entity types in catalog order
(Device is export-only, never migrated, per catalog; spec section 3). -/
def migrationCatalog : List EntityType :=
  [.customer, .site, .accessGroup, .userRole, .user, .orgProperty, .deviceProperty]

/-- Modelled from the spec: `orderedTypes` of the entity catalog returns the
selected types sorted ascending by `dependencyRank`, stable on ties
(spec section 4.1); the catalog list is already in rank order. -/
def orderedTypes (sel : EntityType → Bool) : List EntityType :=
  migrationCatalog.filter sel

/-- Human-readable type name used as the progress phase string. -/
def typeName : EntityType → String
  | .customer => "Customer"
  | .site => "Site"
  | .device => "Device"
  | .accessGroup => "AccessGroup"
  | .userRole => "UserRole"
  | .user => "User"
  | .orgProperty => "OrgProperty"
  | .deviceProperty => "DeviceProperty"

/-! ## Frontend models (App.tsx) -/

/-- Log entry as in types.ts (`LogEntry`), with the timestamp abstracted to
a natural number. -/
structure LogEntryM where
  timestamp : Nat
  level : String
  message : String
deriving DecidableEq

/-- The last `n` elements of a list, as JavaScript `slice(-n)` produces for
positive `n`. -/
def lastN (n : Nat) (l : List LogEntryM) : List LogEntryM :=
  l.drop (l.length - n)

/-- `addLog` from App.tsx lines 220-234: a message equal to the current
last entry's message is dropped; otherwise the new entry is appended to
the last 1999 entries (`prev.slice(-1999)`). -/
def addLog (prev : List LogEntryM) (ts : Nat) (level : String) (message : String) :
    List LogEntryM :=
  match prev.getLast? with
  | some last =>
      if last.message = message then prev
      else lastN 1999 prev ++ [⟨ts, level, message⟩]
  | none => lastN 1999 prev ++ [⟨ts, level, message⟩]

/-- `toggleFormat` from App.tsx lines 610-620: deleting a selected format
is only allowed while more than one format is selected; an unselected
format is added. -/
def toggleFormat (format : String) (prev : Finset String) : Finset String :=
  if format ∈ prev then
    (if 1 < prev.card then prev.erase format else prev)
  else insert format prev

/-- The initial export-format selection (App.tsx line 41:
`useState(new Set(['csv']))`). -/
def initialExportFormats : Finset String := {"csv"}

/-- Mirror of the `ExportOptions` payload built in `handleExport`
(App.tsx lines 523-533). -/
structure ExportOptionsM where
  serviceOrgs : Bool
  customers : Bool
  sites : Bool
  devices : Bool
  accessGroups : Bool
  userRoles : Bool
  orgProperties : Bool
  deviceProperties : Bool
  users : Bool
deriving DecidableEq

/-- Mirror of the options payload built in `handleMigrate`
(App.tsx lines 566-573); note there is no `sites` and no `devices` field. -/
structure MigrationOptionsM where
  customers : Bool
  userRoles : Bool
  accessGroups : Bool
  users : Bool
  orgProperties : Bool
  deviceProperties : Bool
deriving DecidableEq

/-- The `ExportOptions` construction of `handleExport`, keyed on the
selected-type id strings. -/
def mkExportOptions (sel : List String) : ExportOptionsM :=
  ⟨sel.contains "service_orgs", sel.contains "customers", sel.contains "sites",
   sel.contains "devices", sel.contains "access_groups", sel.contains "user_roles",
   sel.contains "org_properties", sel.contains "device_properties", sel.contains "users"⟩

/-- The options construction of `handleMigrate` (App.tsx lines 566-573). -/
def mkMigrationOptions (sel : List String) : MigrationOptionsM :=
  ⟨sel.contains "customers", sel.contains "user_roles", sel.contains "access_groups",
   sel.contains "users", sel.contains "org_properties", sel.contains "device_properties"⟩

/-- Which entity types a migration options payload actually requests; the
payload has no field for Site or Device, so those are never requested. -/
def requestsType (o : MigrationOptionsM) : EntityType → Bool
  | .customer => o.customers
  | .userRole => o.userRoles
  | .accessGroup => o.accessGroups
  | .user => o.users
  | .orgProperty => o.orgProperties
  | .deviceProperty => o.deviceProperties
  | .site => false
  | .device => false

/-- Result of a start-request handler: either rejected with a log message
before any backend call, or the backend invocation is issued. -/
inductive ExportAction
  | rejected (msg : String)
  | started (options : ExportOptionsM)
deriving DecidableEq

/-- Result of `handleMigrate`: rejected, or `startMigration` invoked. -/
inductive MigrateAction
  | rejected (msg : String)
  | started (options : MigrationOptionsM) (sourceSoId : Int) (destSoId : Int)
deriving DecidableEq

/-- A connected service organization, as held in React state. -/
structure ServiceOrg where
  id : Int
  name : String
deriving DecidableEq

/-- `handleExport` from App.tsx lines 507-553, reduced to its gating logic:
an empty service-org id or an empty type selection is rejected before
`startExport` is issued. -/
def handleExport (serviceOrgId : String) (sel : List String) : ExportAction :=
  if serviceOrgId = "" then .rejected "Please enter Service Organization ID"
  else if sel.length = 0 then
    .rejected "Please select at least one data type to export"
  else .started (mkExportOptions sel)

/-- Decimal digits to a natural number. -/
def digitsToNat (ds : List Char) : Nat :=
  ds.foldl (fun acc c => acc * 10 + (c.toNat - 48)) 0

/-- Abstraction of JavaScript parseInt for the non-negative digit strings
the service-org id form fields provide. -/
def parseIntJS (s : String) : Int :=
  (digitsToNat s.toList : Int)

/-- `handleMigrate` from App.tsx lines 555-596, reduced to its gating
logic: only the service-org ids are checked; the type selection is not
inspected before `startMigration` is issued. -/
def handleMigrate (serviceOrgId : String) (destConnected : Option ServiceOrg)
    (destServiceOrgId : String) (sel : List String) : MigrateAction :=
  match destConnected with
  | none =>
      .rejected "Please ensure both Source and Destination Service Org IDs are available"
  | some so =>
      if serviceOrgId = "" then
        .rejected "Please ensure both Source and Destination Service Org IDs are available"
      else
        .started (mkMigrationOptions sel) (parseIntJS serviceOrgId)
          (if destServiceOrgId = "" then so.id else parseIntJS destServiceOrgId)

/-! ## Migration engine data model (modelled from the spec) -/

/-- Modelled from the spec: the per-run Identifier Map of the Rust
migration engine (absent from the sources), mapping `(entity type,
source id)` to destination id; `put` prepends and so overwriting replaces
for lookup purposes (spec section 4.2). -/
abbrev IdMap := List (EntityType × Nat × Nat)

/-- Modelled from the spec: `resolve(type, sourceId)` on the Identifier
Map (spec section 4.2). -/
def resolveId (m : IdMap) (t : EntityType) (sid : Nat) : Option Nat :=
  match m with
  | [] => none
  | (t2, s2, d2) :: rest =>
      if t2 = t ∧ s2 = sid then some d2 else resolveId rest t sid

/-- Modelled from the spec: a record fetched from the source server, with
its source-side id, its natural key, and its declared foreign-key fields
`(field, referencedType, sourceValue)` (spec section 3). -/
structure MigRecord where
  sid : Nat
  naturalKey : String
  refs : List (String × EntityType × Nat)
deriving DecidableEq

/-- Modelled from the spec: `rewrite` replaces each declared foreign-key
value through `resolve`, failing with an unresolved-reference error if any
referenced identifier has no mapping yet (spec section 4.2). -/
def rewriteRefs (m : IdMap) :
    List (String × EntityType × Nat) → Except String (List (String × EntityType × Nat))
  | [] => .ok []
  | (f, rt, v) :: rest =>
      match resolveId m rt v with
      | none => .error ("unresolved reference " ++ f)
      | some d =>
          match rewriteRefs m rest with
          | .error e => .error e
          | .ok tail => .ok ((f, rt, d) :: tail)

/-- Modelled from the spec: the destination server state visible to the
engine, as a listing of `(type, naturalKey, destinationId)` entries plus
the next id the destination will assign on create. -/
structure DestState where
  existing : List (EntityType × String × Nat)
  nextId : Nat
deriving DecidableEq

/-- The natural-key lookup table built from one destination listing
snapshot for one type (spec section 4.3 step 2). -/
def snapshotFor (d : DestState) (t : EntityType) : List (String × Nat) :=
  d.existing.filterMap fun e => if e.1 = t then some (e.2.1, e.2.2) else none

/-- First match by natural key in the existing-set snapshot. -/
def lookupKey (snap : List (String × Nat)) (key : String) : Option Nat :=
  match snap with
  | [] => none
  | (k, i) :: rest => if k = key then some i else lookupKey rest key

/-- Per-entity outcome status of the run result (spec section 6). -/
inductive OutcomeStatus
  | created
  | skipped
  | failed (detail : String)
deriving DecidableEq

/-- One per-entity outcome of the run result. -/
structure OutcomeEntry where
  t : EntityType
  sid : Nat
  status : OutcomeStatus
deriving DecidableEq

/-- Progress event payload (types.ts `ProgressUpdate`), with percent
carried exactly as a rational. -/
structure ProgressUpdate where
  phase : String
  message : String
  percent : ℚ
  current : Nat
  total : Nat
deriving DecidableEq

/-- Observable engine events in emission order: an outcome recorded for a
record, a foreign-key rewrite performed with the Identifier Map in force
at that moment, and a progress update. -/
inductive MigEv
  | processed (t : EntityType) (sid : Nat) (s : OutcomeStatus)
  | rewritten (t : EntityType) (sid : Nat) (m : IdMap)
  | prog (t : EntityType) (p : ProgressUpdate)
deriving DecidableEq

/-- The entity type an event belongs to (the phase it was emitted in). -/
def MigEv.etype : MigEv → EntityType
  | .processed t _ _ => t
  | .rewritten t _ _ => t
  | .prog t _ => t

/-- Engine-internal context threaded through a run: Identifier Map,
destination state, and the cumulative processed-record counter. -/
structure Ctx where
  idMap : IdMap
  dest : DestState
  count : Nat
deriving DecidableEq

/-- Result of processing one record. -/
structure StepRes where
  c : Ctx
  o : OutcomeEntry
  evs : List MigEv
deriving DecidableEq

/-- Result of processing a record sequence or a type sequence: final
context, whether cancellation was observed, outcomes and events emitted. -/
structure RunSt where
  c : Ctx
  cl : Bool
  os : List OutcomeEntry
  evs : List MigEv
deriving DecidableEq

/-- Percent as specified: `cumulativeProcessed / cumulativeTotal * 100`,
clamped to the interval from 0 to 100 (spec section 4.3). -/
def clampPercent (cp ct : Nat) : ℚ :=
  min 100 (max 0 ((cp : ℚ) * 100 / (ct : ℚ)))

/-- Build one progress event (spec section 4.3 step 3d). -/
def mkProg (t : EntityType) (msg : String) (cp ctot pos tot : Nat) : MigEv :=
  .prog t ⟨typeName t, msg, clampPercent cp ctot, pos, tot⟩

/-- Error detail recorded when the destination create call fails. -/
def createFailDetail : String := "create call failed"

/-- Modelled from the spec: match-or-create for one source record
(spec section 4.3 step 3). A natural-key match in the snapshot records
`skipped` and still puts the mapping; otherwise the record is rewritten
(failure recorded per-record) and created through the destination client,
whose failures are decided by the `oracle` parameter. -/
def recStep (oracle : EntityType → Nat → Bool) (t : EntityType)
    (snap : List (String × Nat)) (ctot tot pos : Nat) (c : Ctx) (r : MigRecord) : StepRes :=
  match lookupKey snap r.naturalKey with
  | some destId =>
      ⟨⟨(t, r.sid, destId) :: c.idMap, c.dest, c.count + 1⟩,
       ⟨t, r.sid, .skipped⟩,
       [.processed t r.sid .skipped,
        mkProg t "skipped duplicate" (c.count + 1) ctot pos tot]⟩
  | none =>
      match rewriteRefs c.idMap r.refs with
      | .error e =>
          ⟨⟨c.idMap, c.dest, c.count + 1⟩,
           ⟨t, r.sid, .failed e⟩,
           [.processed t r.sid (.failed e), mkProg t e (c.count + 1) ctot pos tot]⟩
      | .ok _ =>
          if oracle t r.sid then
            ⟨⟨c.idMap, c.dest, c.count + 1⟩,
             ⟨t, r.sid, .failed createFailDetail⟩,
             [.rewritten t r.sid c.idMap,
              .processed t r.sid (.failed createFailDetail),
              mkProg t createFailDetail (c.count + 1) ctot pos tot]⟩
          else
            ⟨⟨(t, r.sid, c.dest.nextId) :: c.idMap,
              ⟨(t, r.naturalKey, c.dest.nextId) :: c.dest.existing, c.dest.nextId + 1⟩,
              c.count + 1⟩,
             ⟨t, r.sid, .created⟩,
             [.rewritten t r.sid c.idMap, .processed t r.sid .created,
              mkProg t "created" (c.count + 1) ctot pos tot]⟩

/-- Whether the cooperative cancellation flag is observed set once
`count` records have been processed: the cancel request arrives at the
processed-record count given by `cancelAt`. -/
def flagSet (cancelAt : Option Nat) (count : Nat) : Bool :=
  match cancelAt with
  | none => false
  | some n => decide (n ≤ count)

/-- Modelled from the spec: the per-record loop of the Rust engine for one
type, checking the cancellation flag before each record (spec sections 4.3
and 5); `pos` is the position within this type's listing. -/
def procRecs (oracle : EntityType → Nat → Bool) (cancelAt : Option Nat)
    (t : EntityType) (snap : List (String × Nat)) (ctot tot : Nat) :
    Nat → Ctx → List MigRecord → RunSt
  | _, c, [] => ⟨c, false, [], []⟩
  | pos, c, r :: rs =>
      if flagSet cancelAt c.count then ⟨c, true, [], []⟩
      else
        let s := recStep oracle t snap ctot tot pos c r
        let rest := procRecs oracle cancelAt t snap ctot tot (pos + 1) s.c rs
        ⟨rest.c, rest.cl, s.o :: rest.os, s.evs ++ rest.evs⟩

/-- Modelled from the spec: the per-type loop of the Rust engine,
processing types in catalog order, checking the cancellation flag at each
type boundary, and stopping for good once cancellation is observed
(spec section 4.3 step 4). -/
def runTypes (oracle : EntityType → Nat → Bool) (cancelAt : Option Nat)
    (ctot : Nat) (src : EntityType → List MigRecord) :
    Ctx → List EntityType → RunSt
  | c, [] => ⟨c, false, [], []⟩
  | c, t :: ts =>
      if flagSet cancelAt c.count then ⟨c, true, [], []⟩
      else
        let s := procRecs oracle cancelAt t (snapshotFor c.dest t) ctot
          (src t).length 1 c (src t)
        if s.cl then s
        else
          let rest := runTypes oracle cancelAt ctot src s.c ts
          ⟨rest.c, rest.cl, s.os ++ rest.os, s.evs ++ rest.evs⟩

/-- Terminal outcome of a migration run. -/
inductive RunOutcome
  | completed
  | cancelled
  | failedRun
deriving DecidableEq

/-- The run result returned to the caller (spec section 6). -/
structure RunResult where
  outcomes : List OutcomeEntry
  trace : List MigEv
  dest : DestState
  idMap : IdMap
  totalProcessed : Nat
  outcome : RunOutcome
deriving DecidableEq

/-- The cumulative total of records across the selected types. -/
def cumulativeTotal (sel : EntityType → Bool) (src : EntityType → List MigRecord) : Nat :=
  ((orderedTypes sel).map fun t => (src t).length).sum

/-- Modelled from the spec: the full migration run of the Rust engine
(absent from the sources) over the selected types, the source listings
`src`, the initial destination state `d0`, the destination create-failure
oracle, and the cancellation arrival point (spec section 4.3). -/
def runMigration (sel : EntityType → Bool) (src : EntityType → List MigRecord)
    (d0 : DestState) (oracle : EntityType → Nat → Bool) (cancelAt : Option Nat) :
    RunResult :=
  let w := runTypes oracle cancelAt (cumulativeTotal sel src) src ⟨[], d0, 0⟩
    (orderedTypes sel)
  ⟨w.os, w.evs, w.c.dest, w.c.idMap, w.c.count,
   if w.cl then .cancelled else .completed⟩

/-! ## Frontend theorems -/

lemma toggleFormat_nonempty (f : String) (prev : Finset String) (h : prev.Nonempty) :
    (toggleFormat f prev).Nonempty := by
  unfold toggleFormat
  split
  · split
    · next hmem hc =>
        refine Finset.card_pos.mp ?_
        rw [Finset.card_erase_of_mem hmem]
        omega
    · exact h
  · exact Finset.insert_nonempty f prev

lemma foldl_toggleFormat_nonempty (s : Finset String) (hs : s.Nonempty)
    (fs : List String) : (fs.foldl (fun s f => toggleFormat f s) s).Nonempty := by
  induction fs generalizing s with
  | nil => exact hs
  | cons f rest ih => exact ih _ (toggleFormat_nonempty f s hs)

/-- C9: starting from the initial selection containing only csv, any
sequence of toggleFormat operations leaves the selected-format set
non-empty; toggling the only remaining selected format leaves the set
unchanged, and toggling an unselected format adds it. -/
theorem C9_toggleFormat_invariant :
    (∀ fs : List String,
      (fs.foldl (fun s f => toggleFormat f s) initialExportFormats).Nonempty)
    ∧ (∀ f prev, f ∈ prev → prev.card = 1 → toggleFormat f prev = prev)
    ∧ (∀ f prev, f ∉ prev → toggleFormat f prev = insert f prev) := by
  refine ⟨?_, ?_, ?_⟩
  · intro fs
    refine foldl_toggleFormat_nonempty _ ⟨"csv", ?_⟩ fs
    simp [initialExportFormats]
  · intro f prev hmem hcard
    unfold toggleFormat
    rw [if_pos hmem, if_neg (by omega)]
  · intro f prev h
    unfold toggleFormat
    rw [if_neg h]

theorem C9_toggleFormat_invariant_witness :
    (["json", "csv"].foldl (fun s f => toggleFormat f s) initialExportFormats).Nonempty
    ∧ toggleFormat "csv" initialExportFormats = initialExportFormats
    ∧ toggleFormat "json" initialExportFormats = insert "json" initialExportFormats :=
  ⟨C9_toggleFormat_invariant.1 ["json", "csv"],
   C9_toggleFormat_invariant.2.1 "csv" initialExportFormats (by decide) (by decide),
   C9_toggleFormat_invariant.2.2 "json" initialExportFormats (by decide)⟩

lemma lastN_length_le (n : Nat) (l : List LogEntryM) : (lastN n l).length ≤ n := by
  simp only [lastN, List.length_drop]
  omega

/-- C10: every addLog call yields a list of at most 2000 entries (both as
an invariant of any call sequence from the empty log and as preservation
from any state within the bound), and a call whose message equals the
current last entry's message leaves the log unchanged. -/
theorem C10_addLog_bound_and_dedup :
    (∀ calls : List (Nat × String × String),
      (calls.foldl (fun l c => addLog l c.1 c.2.1 c.2.2) []).length ≤ 2000)
    ∧ (∀ prev ts lvl msg, prev.length ≤ 2000 →
        (addLog prev ts lvl msg).length ≤ 2000)
    ∧ (∀ prev ts lvl msg e, prev.getLast? = some e → e.message = msg →
        addLog prev ts lvl msg = prev) := by
  have hstep : ∀ prev ts lvl msg, prev.length ≤ 2000 →
      (addLog prev ts lvl msg).length ≤ 2000 := by
    intro prev ts lvl msg h
    have hlast := lastN_length_le 1999 prev
    unfold addLog
    split
    · split
      · exact h
      · simp only [List.length_append, List.length_cons, List.length_nil]
        omega
    · simp only [List.length_append, List.length_cons, List.length_nil]
      omega
  refine ⟨?_, hstep, ?_⟩
  · intro calls
    have h : ∀ (l : List LogEntryM), l.length ≤ 2000 →
        (calls.foldl (fun l c => addLog l c.1 c.2.1 c.2.2) l).length ≤ 2000 := by
      induction calls with
      | nil => intro l h; simpa using h
      | cons c rest ih =>
          intro l h
          exact ih _ (hstep l c.1 c.2.1 c.2.2 h)
    exact h [] (by simp)
  · intro prev ts lvl msg e hl hm
    unfold addLog
    rw [hl]
    simp [hm]

theorem C10_addLog_witness :
    (addLog [] 0 "info" "hello").length ≤ 2000
    ∧ addLog [⟨0, "info", "dup"⟩] 1 "info" "dup" = [⟨0, "info", "dup"⟩] :=
  ⟨C10_addLog_bound_and_dedup.2.1 [] 0 "info" "hello" (by simp),
   C10_addLog_bound_and_dedup.2.2 [⟨0, "info", "dup"⟩] 1 "info" "dup"
     ⟨0, "info", "dup"⟩ rfl rfl⟩

/-- C5 counterexample: a migration start request with an empty
selected-type set is not rejected; handleMigrate issues the
startMigration call (with every option flag false) whenever the source
and destination service orgs are available. -/
theorem C5_counterexample :
    handleMigrate "100" (some ⟨200, "Dest"⟩) "" []
      = .started ⟨false, false, false, false, false, false⟩ 100 200 := by
  decide

/-- C5 amended: an export start request whose selected-type set is empty
is rejected before the run starts, but a migration start request is not
checked for an empty selection: with source and destination service orgs
available, startMigration is always invoked. -/
theorem C5_empty_selection_gating :
    (∀ soid : String, ∀ sel : List String, sel.length = 0 →
      ∃ msg, handleExport soid sel = .rejected msg)
    ∧ (∀ soid : String, soid ≠ "" → ∀ so dsoid sel,
        handleMigrate soid (some so) dsoid sel
          = .started (mkMigrationOptions sel) (parseIntJS soid)
              (if dsoid = "" then so.id else parseIntJS dsoid)) := by
  constructor
  · intro soid sel h
    unfold handleExport
    by_cases hs : soid = ""
    · exact ⟨_, by rw [if_pos hs]⟩
    · exact ⟨_, by rw [if_neg hs, if_pos h]⟩
  · intro soid h so dsoid sel
    simp only [handleMigrate]
    rw [if_neg h]

theorem C5_empty_selection_gating_witness :
    (∃ msg, handleExport "5" [] = .rejected msg)
    ∧ handleMigrate "5" (some ⟨7, "d"⟩) "" ["users"]
        = .started (mkMigrationOptions ["users"]) 5 7 :=
  ⟨C5_empty_selection_gating.1 "5" [] rfl,
   (C5_empty_selection_gating.2 "5" (by decide) ⟨7, "d"⟩ "" ["users"]).trans (by decide)⟩

/-- C7 counterexample: Site cannot be selected for migration; selecting
the sites type id changes nothing about the migration request issued by
handleMigrate. -/
theorem C7_counterexample :
    mkMigrationOptions ["sites"] = mkMigrationOptions []
    ∧ handleMigrate "1" (some ⟨2, "d"⟩) "" ["sites"]
        = handleMigrate "1" (some ⟨2, "d"⟩) "" [] := by
  decide

/-- C7 amended: the entity types selectable for a migration run are
exactly Customer, AccessGroup, UserRole, User, OrgProperty and
DeviceProperty; Site and Device are export-only (never requested by the
migration options payload), and the catalog dependency order is
Customer < Site < AccessGroup < UserRole < User < (OrgProperty,
DeviceProperty). -/
theorem C7_selectable_migration_types :
    (∀ sel : List String,
      requestsType (mkMigrationOptions sel) .site = false
      ∧ requestsType (mkMigrationOptions sel) .device = false
      ∧ requestsType (mkMigrationOptions sel) .customer = sel.contains "customers"
      ∧ requestsType (mkMigrationOptions sel) .accessGroup = sel.contains "access_groups"
      ∧ requestsType (mkMigrationOptions sel) .userRole = sel.contains "user_roles"
      ∧ requestsType (mkMigrationOptions sel) .user = sel.contains "users"
      ∧ requestsType (mkMigrationOptions sel) .orgProperty = sel.contains "org_properties"
      ∧ requestsType (mkMigrationOptions sel) .deviceProperty
          = sel.contains "device_properties")
    ∧ dependencyRank .customer < dependencyRank .site
    ∧ dependencyRank .site < dependencyRank .accessGroup
    ∧ dependencyRank .accessGroup < dependencyRank .userRole
    ∧ dependencyRank .userRole < dependencyRank .user
    ∧ dependencyRank .user < dependencyRank .orgProperty
    ∧ dependencyRank .user < dependencyRank .deviceProperty :=
  ⟨fun _ => ⟨rfl, rfl, rfl, rfl, rfl, rfl, rfl, rfl⟩,
   by decide, by decide, by decide, by decide, by decide, by decide⟩

/-! ## Engine lemmas: single-step facts -/

lemma resolveId_cons_self (m : IdMap) (t : EntityType) (s d : Nat) :
    resolveId ((t, s, d) :: m) t s = some d := by
  simp [resolveId]

lemma resolveId_append_isSome (pre m : IdMap) (t : EntityType) (s : Nat)
    (h : (resolveId m t s).isSome) : (resolveId (pre ++ m) t s).isSome := by
  induction pre with
  | nil => simpa using h
  | cons e rest ih =>
      obtain ⟨t2, s2, d2⟩ := e
      by_cases he : t2 = t ∧ s2 = s
      · simp [resolveId, he]
      · simpa [resolveId, he] using ih

lemma lookupKey_isSome_of_mem (snap : List (String × Nat)) (k : String) (i : Nat)
    (h : (k, i) ∈ snap) : (lookupKey snap k).isSome := by
  induction snap with
  | nil => simp at h
  | cons e rest ih =>
      obtain ⟨k2, i2⟩ := e
      by_cases hk : k2 = k
      · simp [lookupKey, hk]
      · rcases List.mem_cons.mp h with h1 | h1
        · exact absurd (congrArg Prod.fst h1).symm hk
        · simpa [lookupKey, hk] using ih h1

lemma mem_snapshotFor (d : DestState) (t : EntityType) (k : String) (i : Nat)
    (h : (t, k, i) ∈ d.existing) : (k, i) ∈ snapshotFor d t := by
  unfold snapshotFor
  exact List.mem_filterMap.mpr ⟨(t, k, i), h, by simp⟩

lemma recStep_count (o : EntityType → Nat → Bool) (t : EntityType)
    (snap : List (String × Nat)) (ctot tot pos : Nat) (c : Ctx) (r : MigRecord) :
    (recStep o t snap ctot tot pos c r).c.count = c.count + 1 := by
  unfold recStep
  split
  · rfl
  · split
    · rfl
    · split <;> rfl

lemma recStep_idMap (o : EntityType → Nat → Bool) (t : EntityType)
    (snap : List (String × Nat)) (ctot tot pos : Nat) (c : Ctx) (r : MigRecord) :
    ∃ pre, (recStep o t snap ctot tot pos c r).c.idMap = pre ++ c.idMap := by
  unfold recStep
  split
  · exact ⟨[(t, r.sid, _)], rfl⟩
  · split
    · exact ⟨[], rfl⟩
    · split
      · exact ⟨[], rfl⟩
      · exact ⟨[(t, r.sid, c.dest.nextId)], rfl⟩

lemma recStep_existing (o : EntityType → Nat → Bool) (t : EntityType)
    (snap : List (String × Nat)) (ctot tot pos : Nat) (c : Ctx) (r : MigRecord) :
    ∃ pre, (recStep o t snap ctot tot pos c r).c.dest.existing = pre ++ c.dest.existing := by
  unfold recStep
  split
  · exact ⟨[], rfl⟩
  · split
    · exact ⟨[], rfl⟩
    · split
      · exact ⟨[], rfl⟩
      · exact ⟨[(t, r.naturalKey, c.dest.nextId)], rfl⟩

lemma recStep_o_t (o : EntityType → Nat → Bool) (t : EntityType)
    (snap : List (String × Nat)) (ctot tot pos : Nat) (c : Ctx) (r : MigRecord) :
    (recStep o t snap ctot tot pos c r).o.t = t := by
  unfold recStep
  split
  · rfl
  · split
    · rfl
    · split <;> rfl

lemma recStep_o_sid (o : EntityType → Nat → Bool) (t : EntityType)
    (snap : List (String × Nat)) (ctot tot pos : Nat) (c : Ctx) (r : MigRecord) :
    (recStep o t snap ctot tot pos c r).o.sid = r.sid := by
  unfold recStep
  split
  · rfl
  · split
    · rfl
    · split <;> rfl

lemma recStep_etype (o : EntityType → Nat → Bool) (t : EntityType)
    (snap : List (String × Nat)) (ctot tot pos : Nat) (c : Ctx) (r : MigRecord) :
    ∀ e ∈ (recStep o t snap ctot tot pos c r).evs, e.etype = t := by
  unfold recStep
  split
  · intro e he
    simp only [List.mem_cons, List.not_mem_nil, or_false] at he
    rcases he with rfl | rfl <;> rfl
  · split
    · intro e he
      simp only [List.mem_cons, List.not_mem_nil, or_false] at he
      rcases he with rfl | rfl <;> rfl
    · split <;> intro e he <;>
        simp only [List.mem_cons, List.not_mem_nil, or_false] at he <;>
        rcases he with rfl | rfl | rfl <;> rfl

lemma recStep_skipped_iff (o : EntityType → Nat → Bool) (t : EntityType)
    (snap : List (String × Nat)) (ctot tot pos : Nat) (c : Ctx) (r : MigRecord) :
    (recStep o t snap ctot tot pos c r).o.status = .skipped
      ↔ (lookupKey snap r.naturalKey).isSome := by
  unfold recStep
  split
  · next h => simp [h]
  · next h =>
      split
      · simp [h]
      · split <;> simp [h]

lemma recStep_created_mem (o : EntityType → Nat → Bool) (t : EntityType)
    (snap : List (String × Nat)) (ctot tot pos : Nat) (c : Ctx) (r : MigRecord)
    (h : (recStep o t snap ctot tot pos c r).o.status = .created) :
    ∃ i, (t, r.naturalKey, i) ∈ (recStep o t snap ctot tot pos c r).c.dest.existing := by
  revert h
  unfold recStep
  split
  · intro h; exact absurd h (by simp)
  · split
    · intro h; exact absurd h (by simp)
    · split
      · intro h; exact absurd h (by simp)
      · intro _
        exact ⟨c.dest.nextId, by simp⟩

lemma recStep_processed_mem (o : EntityType → Nat → Bool) (t : EntityType)
    (snap : List (String × Nat)) (ctot tot pos : Nat) (c : Ctx) (r : MigRecord) :
    MigEv.processed t r.sid (recStep o t snap ctot tot pos c r).o.status
      ∈ (recStep o t snap ctot tot pos c r).evs := by
  unfold recStep
  split
  · simp
  · split
    · simp
    · split <;> simp

lemma recStep_mapped (o : EntityType → Nat → Bool) (t : EntityType)
    (snap : List (String × Nat)) (ctot tot pos : Nat) (c : Ctx) (r : MigRecord)
    (h : (recStep o t snap ctot tot pos c r).o.status = .created
      ∨ (recStep o t snap ctot tot pos c r).o.status = .skipped) :
    (resolveId (recStep o t snap ctot tot pos c r).c.idMap t r.sid).isSome := by
  revert h
  unfold recStep
  split
  · intro _
    simp [resolveId_cons_self]
  · split
    · intro h
      exact absurd h (by simp)
    · split
      · intro h
        exact absurd h (by simp)
      · intro _
        simp [resolveId_cons_self]

lemma recStep_rewritten_map (o : EntityType → Nat → Bool) (t : EntityType)
    (snap : List (String × Nat)) (ctot tot pos : Nat) (c : Ctx) (r : MigRecord)
    (t2 : EntityType) (sid : Nat) (m : IdMap)
    (h : MigEv.rewritten t2 sid m ∈ (recStep o t snap ctot tot pos c r).evs) :
    m = c.idMap := by
  revert h
  unfold recStep
  split
  · intro h
    simp only [List.mem_cons, List.not_mem_nil, or_false, mkProg] at h
    rcases h with h | h <;> simp_all
  · split
    · intro h
      simp only [List.mem_cons, List.not_mem_nil, or_false, mkProg] at h
      rcases h with h | h <;> simp_all
    · split <;> intro h <;>
        simp only [List.mem_cons, List.not_mem_nil, or_false, mkProg] at h <;>
        rcases h with h | h | h <;> simp_all

lemma recStep_prog_percent (o : EntityType → Nat → Bool) (t : EntityType)
    (snap : List (String × Nat)) (ctot tot pos : Nat) (c : Ctx) (r : MigRecord)
    (t2 : EntityType) (p : ProgressUpdate)
    (h : MigEv.prog t2 p ∈ (recStep o t snap ctot tot pos c r).evs) :
    p.percent = clampPercent (c.count + 1) ctot := by
  revert h
  unfold recStep
  split
  · intro h
    simp only [List.mem_cons, List.not_mem_nil, or_false, mkProg] at h
    rcases h with h | h <;> simp_all
  · split
    · intro h
      simp only [List.mem_cons, List.not_mem_nil, or_false, mkProg] at h
      rcases h with h | h <;> simp_all
    · split <;> intro h <;>
        simp only [List.mem_cons, List.not_mem_nil, or_false, mkProg] at h <;>
        rcases h with h | h | h <;> simp_all

/-! ## Engine lemmas: per-type record loop -/

section ProcRecsLemmas

variable (o : EntityType → Nat → Bool) (cAt : Option Nat) (t : EntityType)
variable (snap : List (String × Nat)) (ctot tot : Nat)

lemma procRecs_idMap : ∀ (rs : List MigRecord) (pos : Nat) (c : Ctx),
    ∃ pre, (procRecs o cAt t snap ctot tot pos c rs).c.idMap = pre ++ c.idMap := by
  intro rs
  induction rs with
  | nil => exact fun pos c => ⟨[], rfl⟩
  | cons r rs ih =>
      intro pos c
      simp only [procRecs]
      split
      · exact ⟨[], rfl⟩
      · obtain ⟨p1, h1⟩ := recStep_idMap o t snap ctot tot pos c r
        obtain ⟨p2, h2⟩ := ih (pos + 1) (recStep o t snap ctot tot pos c r).c
        exact ⟨p2 ++ p1, by rw [h2, h1, List.append_assoc]⟩

lemma procRecs_existing : ∀ (rs : List MigRecord) (pos : Nat) (c : Ctx),
    ∃ pre, (procRecs o cAt t snap ctot tot pos c rs).c.dest.existing
      = pre ++ c.dest.existing := by
  intro rs
  induction rs with
  | nil => exact fun pos c => ⟨[], rfl⟩
  | cons r rs ih =>
      intro pos c
      simp only [procRecs]
      split
      · exact ⟨[], rfl⟩
      · obtain ⟨p1, h1⟩ := recStep_existing o t snap ctot tot pos c r
        obtain ⟨p2, h2⟩ := ih (pos + 1) (recStep o t snap ctot tot pos c r).c
        exact ⟨p2 ++ p1, by rw [h2, h1, List.append_assoc]⟩

lemma procRecs_etype : ∀ (rs : List MigRecord) (pos : Nat) (c : Ctx),
    ∀ e ∈ (procRecs o cAt t snap ctot tot pos c rs).evs, e.etype = t := by
  intro rs
  induction rs with
  | nil => intro pos c e he; simp [procRecs] at he
  | cons r rs ih =>
      intro pos c e he
      simp only [procRecs] at he
      split at he
      · simp at he
      · rcases List.mem_append.mp he with h | h
        · exact recStep_etype o t snap ctot tot pos c r e h
        · exact ih (pos + 1) _ e h

lemma procRecs_os_t : ∀ (rs : List MigRecord) (pos : Nat) (c : Ctx),
    ∀ x ∈ (procRecs o cAt t snap ctot tot pos c rs).os, x.t = t := by
  intro rs
  induction rs with
  | nil => intro pos c x hx; simp [procRecs] at hx
  | cons r rs ih =>
      intro pos c x hx
      simp only [procRecs] at hx
      split at hx
      · simp at hx
      · rcases List.mem_cons.mp hx with h | h
        · rw [h]
          exact recStep_o_t o t snap ctot tot pos c r
        · exact ih (pos + 1) _ x h

lemma procRecs_rewritten_map : ∀ (rs : List MigRecord) (pos : Nat) (c : Ctx)
    (t2 : EntityType) (sid : Nat) (m : IdMap),
    MigEv.rewritten t2 sid m ∈ (procRecs o cAt t snap ctot tot pos c rs).evs →
    ∃ pre, m = pre ++ c.idMap := by
  intro rs
  induction rs with
  | nil => intro pos c t2 sid m h; simp [procRecs] at h
  | cons r rs ih =>
      intro pos c t2 sid m h
      simp only [procRecs] at h
      split at h
      · simp at h
      · rcases List.mem_append.mp h with h1 | h1
        · exact ⟨[], recStep_rewritten_map o t snap ctot tot pos c r t2 sid m h1⟩
        · obtain ⟨p2, h2⟩ := ih (pos + 1) (recStep o t snap ctot tot pos c r).c t2 sid m h1
          obtain ⟨p1, h3⟩ := recStep_idMap o t snap ctot tot pos c r
          exact ⟨p2 ++ p1, by rw [h2, h3, List.append_assoc]⟩

lemma procRecs_prog_percent : ∀ (rs : List MigRecord) (pos : Nat) (c : Ctx)
    (t2 : EntityType) (p : ProgressUpdate),
    MigEv.prog t2 p ∈ (procRecs o cAt t snap ctot tot pos c rs).evs →
    ∃ cp, p.percent = clampPercent cp ctot := by
  intro rs
  induction rs with
  | nil => intro pos c t2 p h; simp [procRecs] at h
  | cons r rs ih =>
      intro pos c t2 p h
      simp only [procRecs] at h
      split at h
      · simp at h
      · rcases List.mem_append.mp h with h1 | h1
        · exact ⟨c.count + 1, recStep_prog_percent o t snap ctot tot pos c r t2 p h1⟩
        · exact ih (pos + 1) _ t2 p h1

lemma procRecs_full : ∀ (rs : List MigRecord) (pos : Nat) (c : Ctx),
    (∀ k, k < rs.length → flagSet cAt (c.count + k) = false) →
    (procRecs o cAt t snap ctot tot pos c rs).cl = false
    ∧ (procRecs o cAt t snap ctot tot pos c rs).os.length = rs.length
    ∧ (procRecs o cAt t snap ctot tot pos c rs).c.count = c.count + rs.length := by
  intro rs
  induction rs with
  | nil => exact fun pos c _ => ⟨rfl, rfl, rfl⟩
  | cons r rs ih =>
      intro pos c hn
      have h0 : flagSet cAt c.count = false := by
        simpa using hn 0 (by simp)
      simp only [procRecs, h0, Bool.false_eq_true, if_false]
      have hc := recStep_count o t snap ctot tot pos c r
      have hrest := ih (pos + 1) (recStep o t snap ctot tot pos c r).c (by
        intro k hk
        have heq : (recStep o t snap ctot tot pos c r).c.count + k = c.count + (k + 1) := by
          rw [hc]; omega
        rw [heq]
        exact hn (k + 1) (by simpa using Nat.succ_lt_succ hk))
      refine ⟨hrest.1, ?_, ?_⟩
      · simp [hrest.2.1]
      · rw [hrest.2.2, hc]
        simp only [List.length_cons]
        omega

lemma procRecs_none_get : ∀ (rs : List MigRecord) (pos : Nat) (c : Ctx)
    (j : Nat) (hj : j < rs.length),
    ∃ hj2 : j < (procRecs o none t snap ctot tot pos c rs).os.length,
      ((procRecs o none t snap ctot tot pos c rs).os[j]).sid = (rs[j]).sid
      ∧ (((procRecs o none t snap ctot tot pos c rs).os[j]).status = .skipped
          ↔ (lookupKey snap (rs[j]).naturalKey).isSome)
      ∧ (((procRecs o none t snap ctot tot pos c rs).os[j]).status = .created →
          ∃ i, (t, (rs[j]).naturalKey, i)
            ∈ (procRecs o none t snap ctot tot pos c rs).c.dest.existing) := by
  intro rs
  induction rs with
  | nil => intro pos c j hj; exact absurd hj (by simp)
  | cons r rs ih =>
      intro pos c j hj
      have h0 : flagSet none c.count = false := rfl
      simp only [procRecs, h0, Bool.false_eq_true, if_false]
      match j with
      | 0 =>
          refine ⟨by simp, ?_, ?_, ?_⟩
          · simpa using recStep_o_sid o t snap ctot tot pos c r
          · simpa using recStep_skipped_iff o t snap ctot tot pos c r
          · intro hcr
            obtain ⟨i, hi⟩ := recStep_created_mem o t snap ctot tot pos c r (by simpa using hcr)
            obtain ⟨p2, h2⟩ := procRecs_existing o none t snap ctot tot rs (pos + 1)
              (recStep o t snap ctot tot pos c r).c
            refine ⟨i, ?_⟩
            simp only [List.getElem_cons_zero] at hi ⊢
            rw [h2]
            exact List.mem_append_right _ hi
      | j + 1 =>
          obtain ⟨hj2, hsid, hsk, hcr⟩ := ih (pos + 1) (recStep o t snap ctot tot pos c r).c j
            (by simpa using Nat.lt_of_succ_lt_succ hj)
          exact ⟨by simpa using Nat.succ_lt_succ hj2, by simpa using hsid,
            by simpa using hsk, by simpa using hcr⟩

lemma procRecs_cl_false_processed : ∀ (rs : List MigRecord) (pos : Nat) (c : Ctx),
    (procRecs o cAt t snap ctot tot pos c rs).cl = false →
    ∀ r ∈ rs, ∃ s, MigEv.processed t r.sid s ∈ (procRecs o cAt t snap ctot tot pos c rs).evs
      ∧ ((s = .created ∨ s = .skipped) →
          (resolveId (procRecs o cAt t snap ctot tot pos c rs).c.idMap t r.sid).isSome) := by
  intro rs
  induction rs with
  | nil => intro pos c _ r hr; simp at hr
  | cons r2 rs ih =>
      intro pos c hcl r hr
      simp only [procRecs] at hcl ⊢
      split at hcl
      · simp at hcl
      · next hflag =>
          simp only [hflag, Bool.false_eq_true, if_false]
          rcases List.mem_cons.mp hr with h | h
          · subst h
            refine ⟨(recStep o t snap ctot tot pos c r).o.status, ?_, ?_⟩
            · exact List.mem_append_left _ (recStep_processed_mem o t snap ctot tot pos c r)
            · intro hs
              have hbase := recStep_mapped o t snap ctot tot pos c r hs
              obtain ⟨p2, h2⟩ := procRecs_idMap o cAt t snap ctot tot rs (pos + 1)
                (recStep o t snap ctot tot pos c r).c
              rw [h2]
              exact resolveId_append_isSome p2 _ t r.sid hbase
          · obtain ⟨s, hmem, hmap⟩ := ih (pos + 1) (recStep o t snap ctot tot pos c r2).c hcl r h
            exact ⟨s, List.mem_append_right _ hmem, hmap⟩

lemma procRecs_partial : ∀ (rs : List MigRecord) (pos : Nat) (c : Ctx) (n : Nat),
    cAt = some n → c.count < n → n - c.count < rs.length →
    (procRecs o cAt t snap ctot tot pos c rs).cl = true
    ∧ (procRecs o cAt t snap ctot tot pos c rs).os.length = n - c.count
    ∧ (procRecs o cAt t snap ctot tot pos c rs).c.count = n := by
  intro rs
  induction rs with
  | nil => intro pos c n hcA hlt hlen; exact absurd hlen (by simp)
  | cons r rs ih =>
      intro pos c n hcA hlt hlen
      have h0 : flagSet cAt c.count = false := by
        subst hcA
        simp [flagSet]
        omega
      simp only [procRecs, h0, Bool.false_eq_true, if_false]
      have hc := recStep_count o t snap ctot tot pos c r
      by_cases heq : c.count + 1 = n
      · cases rs with
        | nil => exact absurd hlen (by simp; omega)
        | cons r2 rs2 =>
            have hflag2 : flagSet cAt (recStep o t snap ctot tot pos c r).c.count = true := by
              subst hcA
              simp [flagSet, hc]
              omega
            simp only [procRecs, hflag2, if_true]
            refine ⟨by trivial, ?_, ?_⟩
            · simp
              omega
            · rw [hc]
              omega
      · have hrest := ih (pos + 1) (recStep o t snap ctot tot pos c r).c n hcA
          (by rw [hc]; omega) (by rw [hc]; simp at hlen ⊢; omega)
        refine ⟨hrest.1, ?_, hrest.2.2⟩
        simp only [List.length_cons, hrest.2.1, hc]
        omega

end ProcRecsLemmas

/-! ## Engine lemmas: type loop -/

lemma flagSet_none (v : Nat) : flagSet none v = false := rfl

section RunTypesLemmas

variable (o : EntityType → Nat → Bool) (cAt : Option Nat) (ctot : Nat)
variable (src : EntityType → List MigRecord)

lemma runTypes_idMap : ∀ (ts : List EntityType) (c : Ctx),
    ∃ pre, (runTypes o cAt ctot src c ts).c.idMap = pre ++ c.idMap := by
  intro ts
  induction ts with
  | nil => exact fun c => ⟨[], rfl⟩
  | cons t2 ts ih =>
      intro c
      simp only [runTypes]
      split
      · exact ⟨[], rfl⟩
      · split
        · exact procRecs_idMap o cAt t2 (snapshotFor c.dest t2) ctot (src t2).length
            (src t2) 1 c
        · obtain ⟨p1, h1⟩ := procRecs_idMap o cAt t2 (snapshotFor c.dest t2) ctot
            (src t2).length (src t2) 1 c
          obtain ⟨p2, h2⟩ := ih (procRecs o cAt t2 (snapshotFor c.dest t2) ctot
            (src t2).length 1 c (src t2)).c
          exact ⟨p2 ++ p1, by rw [h2, h1, List.append_assoc]⟩

lemma runTypes_existing : ∀ (ts : List EntityType) (c : Ctx),
    ∃ pre, (runTypes o cAt ctot src c ts).c.dest.existing = pre ++ c.dest.existing := by
  intro ts
  induction ts with
  | nil => exact fun c => ⟨[], rfl⟩
  | cons t2 ts ih =>
      intro c
      simp only [runTypes]
      split
      · exact ⟨[], rfl⟩
      · split
        · exact procRecs_existing o cAt t2 (snapshotFor c.dest t2) ctot (src t2).length
            (src t2) 1 c
        · obtain ⟨p1, h1⟩ := procRecs_existing o cAt t2 (snapshotFor c.dest t2) ctot
            (src t2).length (src t2) 1 c
          obtain ⟨p2, h2⟩ := ih (procRecs o cAt t2 (snapshotFor c.dest t2) ctot
            (src t2).length 1 c (src t2)).c
          exact ⟨p2 ++ p1, by rw [h2, h1, List.append_assoc]⟩

lemma runTypes_etype_mem : ∀ (ts : List EntityType) (c : Ctx),
    ∀ e ∈ (runTypes o cAt ctot src c ts).evs, e.etype ∈ ts := by
  intro ts
  induction ts with
  | nil => intro c e he; simp [runTypes] at he
  | cons t2 ts ih =>
      intro c e he
      simp only [runTypes] at he
      split at he
      · simp at he
      · split at he
        · rw [procRecs_etype o cAt t2 (snapshotFor c.dest t2) ctot (src t2).length
            (src t2) 1 c e he]
          exact List.mem_cons_self _ _
        · rcases List.mem_append.mp he with h | h
          · rw [procRecs_etype o cAt t2 (snapshotFor c.dest t2) ctot (src t2).length
              (src t2) 1 c e h]
            exact List.mem_cons_self _ _
          · exact List.mem_cons_of_mem _ (ih _ e h)

lemma runTypes_os_mem : ∀ (ts : List EntityType) (c : Ctx),
    ∀ x ∈ (runTypes o cAt ctot src c ts).os, x.t ∈ ts := by
  intro ts
  induction ts with
  | nil => intro c x hx; simp [runTypes] at hx
  | cons t2 ts ih =>
      intro c x hx
      simp only [runTypes] at hx
      split at hx
      · simp at hx
      · split at hx
        · rw [procRecs_os_t o cAt t2 (snapshotFor c.dest t2) ctot (src t2).length
            (src t2) 1 c x hx]
          exact List.mem_cons_self _ _
        · rcases List.mem_append.mp hx with h | h
          · rw [procRecs_os_t o cAt t2 (snapshotFor c.dest t2) ctot (src t2).length
              (src t2) 1 c x h]
            exact List.mem_cons_self _ _
          · exact List.mem_cons_of_mem _ (ih _ x h)

lemma runTypes_rewritten_map : ∀ (ts : List EntityType) (c : Ctx)
    (t2 : EntityType) (sid : Nat) (m : IdMap),
    MigEv.rewritten t2 sid m ∈ (runTypes o cAt ctot src c ts).evs →
    ∃ pre, m = pre ++ c.idMap := by
  intro ts
  induction ts with
  | nil => intro c t2 sid m h; simp [runTypes] at h
  | cons t3 ts ih =>
      intro c t2 sid m h
      simp only [runTypes] at h
      split at h
      · simp at h
      · split at h
        · exact procRecs_rewritten_map o cAt t3 (snapshotFor c.dest t3) ctot
            (src t3).length (src t3) 1 c t2 sid m h
        · rcases List.mem_append.mp h with h1 | h1
          · exact procRecs_rewritten_map o cAt t3 (snapshotFor c.dest t3) ctot
              (src t3).length (src t3) 1 c t2 sid m h1
          · obtain ⟨p2, h2⟩ := ih _ t2 sid m h1
            obtain ⟨p1, h3⟩ := procRecs_idMap o cAt t3 (snapshotFor c.dest t3) ctot
              (src t3).length (src t3) 1 c
            exact ⟨p2 ++ p1, by rw [h2, h3, List.append_assoc]⟩

lemma runTypes_prog_percent : ∀ (ts : List EntityType) (c : Ctx)
    (t2 : EntityType) (p : ProgressUpdate),
    MigEv.prog t2 p ∈ (runTypes o cAt ctot src c ts).evs →
    ∃ cp, p.percent = clampPercent cp ctot := by
  intro ts
  induction ts with
  | nil => intro c t2 p h; simp [runTypes] at h
  | cons t3 ts ih =>
      intro c t2 p h
      simp only [runTypes] at h
      split at h
      · simp at h
      · split at h
        · exact procRecs_prog_percent o cAt t3 (snapshotFor c.dest t3) ctot
            (src t3).length (src t3) 1 c t2 p h
        · rcases List.mem_append.mp h with h1 | h1
          · exact procRecs_prog_percent o cAt t3 (snapshotFor c.dest t3) ctot
              (src t3).length (src t3) 1 c t2 p h1
          · exact ih _ t2 p h1

lemma runTypes_full : ∀ (ts : List EntityType) (c : Ctx),
    (∀ v, v ≤ c.count + ((ts.map fun t2 => (src t2).length).sum) →
      flagSet cAt v = false) →
    (runTypes o cAt ctot src c ts).cl = false
    ∧ (runTypes o cAt ctot src c ts).os.length
        = ((ts.map fun t2 => (src t2).length).sum)
    ∧ (runTypes o cAt ctot src c ts).c.count
        = c.count + ((ts.map fun t2 => (src t2).length).sum) := by
  intro ts
  induction ts with
  | nil => exact fun c _ => ⟨rfl, rfl, by simp [runTypes]⟩
  | cons t2 ts ih =>
      intro c h
      have hsum : (((t2 :: ts).map fun t3 => (src t3).length).sum)
          = (src t2).length + ((ts.map fun t3 => (src t3).length).sum) := by
        simp
      have hflag : flagSet cAt c.count = false := h c.count (by omega)
      simp only [runTypes, hflag, Bool.false_eq_true, if_false]
      have hs := procRecs_full o cAt t2 (snapshotFor c.dest t2) ctot (src t2).length
        (src t2) 1 c (by
          intro k hk
          exact h (c.count + k) (by rw [hsum]; omega))
      simp only [hs.1, Bool.false_eq_true, if_false]
      have hrest := ih (procRecs o cAt t2 (snapshotFor c.dest t2) ctot
          (src t2).length 1 c (src t2)).c (by
        intro v hv
        refine h v ?_
        rw [hsum]
        rw [hs.2.2] at hv
        omega)
      refine ⟨hrest.1, ?_, ?_⟩
      · rw [List.length_append, hs.2.1, hrest.2.1, hsum]
      · rw [hrest.2.2, hs.2.2, hsum]
        omega

lemma runTypes_append_cl_false : ∀ (A B : List EntityType) (c : Ctx),
    (runTypes o cAt ctot src c A).cl = false →
    (runTypes o cAt ctot src c (A ++ B)).os
        = (runTypes o cAt ctot src c A).os
          ++ (runTypes o cAt ctot src (runTypes o cAt ctot src c A).c B).os
    ∧ (runTypes o cAt ctot src c (A ++ B)).evs
        = (runTypes o cAt ctot src c A).evs
          ++ (runTypes o cAt ctot src (runTypes o cAt ctot src c A).c B).evs
    ∧ (runTypes o cAt ctot src c (A ++ B)).c
        = (runTypes o cAt ctot src (runTypes o cAt ctot src c A).c B).c
    ∧ (runTypes o cAt ctot src c (A ++ B)).cl
        = (runTypes o cAt ctot src (runTypes o cAt ctot src c A).c B).cl := by
  intro A
  induction A with
  | nil =>
      intro B c _
      exact ⟨rfl, rfl, rfl, rfl⟩
  | cons a A ih =>
      intro B c hcl
      simp only [runTypes, List.cons_append] at hcl ⊢
      split at hcl
      · simp at hcl
      · next hflag =>
          simp only [runTypes, hflag, Bool.false_eq_true, if_false]
          split at hcl
          · simp_all
          · next hscl =>
              simp only [hscl, Bool.false_eq_true, if_false] at hcl ⊢
              simp only [List.append_eq]
              obtain ⟨h1, h2, h3, h4⟩ := ih B
                (procRecs o cAt a (snapshotFor c.dest a) ctot (src a).length 1 c (src a)).c
                hcl
              refine ⟨?_, ?_, ?_, ?_⟩
              · rw [h1, List.append_assoc]
              · rw [h2, List.append_assoc]
              · exact h3
              · exact h4

end RunTypesLemmas

/-! ## Catalog order facts -/

lemma migrationCatalog_nodup : migrationCatalog.Nodup := by decide

lemma migrationCatalog_sorted :
    migrationCatalog.Pairwise (fun a b => dependencyRank a ≤ dependencyRank b) := by
  decide

lemma orderedTypes_nodup (sel : EntityType → Bool) : (orderedTypes sel).Nodup :=
  migrationCatalog_nodup.filter sel

lemma orderedTypes_sorted (sel : EntityType → Bool) :
    (orderedTypes sel).Pairwise (fun a b => dependencyRank a ≤ dependencyRank b) :=
  migrationCatalog_sorted.filter sel

/-! ## Claim theorems: engine -/

/-- C6: a run whose selected-type set is empty completes immediately with
outcome Completed, zero records processed and no outcomes. -/
theorem C6_empty_selection_completes (sel : EntityType → Bool)
    (src : EntityType → List MigRecord) (d0 : DestState)
    (oracle : EntityType → Nat → Bool) (cancelAt : Option Nat)
    (h : ∀ t, sel t = false) :
    (runMigration sel src d0 oracle cancelAt).outcome = RunOutcome.completed
    ∧ (runMigration sel src d0 oracle cancelAt).totalProcessed = 0
    ∧ (runMigration sel src d0 oracle cancelAt).outcomes = [] := by
  have hempty : orderedTypes sel = [] := by
    unfold orderedTypes
    rw [List.filter_eq_nil_iff]
    intro a _
    simp [h a]
  refine ⟨?_, ?_, ?_⟩ <;> simp [runMigration, hempty, runTypes]

theorem C6_empty_selection_witness :
    (runMigration (fun _ => false) (fun _ => []) ⟨[], 0⟩ (fun _ _ => false) none).outcome
      = RunOutcome.completed
    ∧ (runMigration (fun _ => false) (fun _ => []) ⟨[], 0⟩ (fun _ _ => false)
        none).totalProcessed = 0 :=
  ⟨(C6_empty_selection_completes _ _ _ _ _ (fun _ => rfl)).1,
   (C6_empty_selection_completes _ _ _ _ _ (fun _ => rfl)).2.1⟩

/-- C3: a failing foreign-key rewrite or a failing destination create call
yields a `failed` outcome for that record with the processed counter still
advancing, and for any pattern of per-record failures a run without
cancellation still records one outcome per source record and terminates
Completed: per-record errors are never fatal to the run. -/
theorem C3_per_record_failures (oracle : EntityType → Nat → Bool) :
    (∀ (t : EntityType) (snap : List (String × Nat)) (ctot tot pos : Nat) (c : Ctx)
        (r : MigRecord) (e : String),
      lookupKey snap r.naturalKey = none →
      rewriteRefs c.idMap r.refs = Except.error e →
      (recStep oracle t snap ctot tot pos c r).o = ⟨t, r.sid, OutcomeStatus.failed e⟩
      ∧ (recStep oracle t snap ctot tot pos c r).c.count = c.count + 1)
    ∧ (∀ (t : EntityType) (snap : List (String × Nat)) (ctot tot pos : Nat) (c : Ctx)
        (r : MigRecord) (rs2 : List (String × EntityType × Nat)),
      lookupKey snap r.naturalKey = none →
      rewriteRefs c.idMap r.refs = Except.ok rs2 →
      oracle t r.sid = true →
      (recStep oracle t snap ctot tot pos c r).o
        = ⟨t, r.sid, OutcomeStatus.failed createFailDetail⟩
      ∧ (recStep oracle t snap ctot tot pos c r).c.count = c.count + 1)
    ∧ (∀ (sel : EntityType → Bool) (src : EntityType → List MigRecord) (d0 : DestState),
      (runMigration sel src d0 oracle none).outcomes.length = cumulativeTotal sel src
      ∧ (runMigration sel src d0 oracle none).outcome = RunOutcome.completed) := by
  refine ⟨?_, ?_, ?_⟩
  · intro t snap ctot tot pos c r e hl hrw
    unfold recStep
    rw [hl, hrw]
    exact ⟨rfl, rfl⟩
  · intro t snap ctot tot pos c r rs2 hl hrw hor
    unfold recStep
    rw [hl, hrw]
    simp [hor]
  · intro sel src d0
    have hfull := runTypes_full oracle none (cumulativeTotal sel src) src
      (orderedTypes sel) ⟨[], d0, 0⟩ (fun v _ => rfl)
    constructor
    · simpa [runMigration, cumulativeTotal] using hfull.2.1
    · simp [runMigration, hfull.1]

theorem C3_per_record_failures_witness :
    (recStep (fun _ _ => true) EntityType.user [] 1 1 1 ⟨[], ⟨[], 0⟩, 0⟩
        ⟨5, "u", [("roleId", EntityType.userRole, 9)]⟩).o
      = ⟨EntityType.user, 5, OutcomeStatus.failed "unresolved reference roleId"⟩
    ∧ (recStep (fun _ _ => true) EntityType.user [] 1 1 1 ⟨[], ⟨[], 0⟩, 0⟩
        ⟨5, "u", []⟩).o
      = ⟨EntityType.user, 5, OutcomeStatus.failed createFailDetail⟩
    ∧ (runMigration (fun t => decide (t = EntityType.customer))
        (fun t => if t = EntityType.customer then [⟨1, "a", []⟩] else [])
        ⟨[], 0⟩ (fun _ _ => true) none).outcomes.length
      = cumulativeTotal (fun t => decide (t = EntityType.customer))
          (fun t => if t = EntityType.customer then [⟨1, "a", []⟩] else []) :=
  ⟨((C3_per_record_failures (fun _ _ => true)).1 EntityType.user [] 1 1 1
      ⟨[], ⟨[], 0⟩, 0⟩ ⟨5, "u", [("roleId", EntityType.userRole, 9)]⟩
      "unresolved reference roleId" rfl rfl).1,
   ((C3_per_record_failures (fun _ _ => true)).2.1 EntityType.user [] 1 1 1
      ⟨[], ⟨[], 0⟩, 0⟩ ⟨5, "u", []⟩ [] rfl rfl rfl).1,
   ((C3_per_record_failures (fun _ _ => true)).2.2 _ _ _).1⟩

/-- C8: every progress event emitted during a run carries a percent that
lies between 0 and 100 and equals the clamped ratio of a cumulative
processed count over the cumulative total. -/
theorem C8_progress_percent_range (sel : EntityType → Bool)
    (src : EntityType → List MigRecord) (d0 : DestState)
    (oracle : EntityType → Nat → Bool) (cancelAt : Option Nat)
    (t : EntityType) (p : ProgressUpdate)
    (h : MigEv.prog t p ∈ (runMigration sel src d0 oracle cancelAt).trace) :
    0 ≤ p.percent ∧ p.percent ≤ 100
    ∧ ∃ cp, p.percent = clampPercent cp (cumulativeTotal sel src) := by
  have hm : MigEv.prog t p ∈ (runTypes oracle cancelAt (cumulativeTotal sel src) src
      ⟨[], d0, 0⟩ (orderedTypes sel)).evs := by
    simpa [runMigration] using h
  obtain ⟨cp, hcp⟩ := runTypes_prog_percent oracle cancelAt (cumulativeTotal sel src)
    src (orderedTypes sel) ⟨[], d0, 0⟩ t p hm
  refine ⟨?_, ?_, cp, hcp⟩
  · rw [hcp]
    unfold clampPercent
    exact le_min (by norm_num) (le_max_left 0 _)
  · rw [hcp]
    exact min_le_left _ _

lemma getElem_list_congr {α : Type} {l l2 : List α} (h : l = l2) (i : Nat)
    (hi : i < l.length) (hi2 : i < l2.length) : l[i] = l2[i] := by
  subst h
  rfl

lemma run_seg (o : EntityType → Nat → Bool) (sel : EntityType → Bool)
    (src : EntityType → List MigRecord) (d : DestState)
    (t : EntityType) (A B : List EntityType)
    (hsplit : orderedTypes sel = A ++ t :: B) :
    ∃ cA sT,
      cA = (runTypes o none (cumulativeTotal sel src) src ⟨[], d, 0⟩ A).c
      ∧ sT = procRecs o none t (snapshotFor cA.dest t) (cumulativeTotal sel src)
          (src t).length 1 cA (src t)
      ∧ (runTypes o none (cumulativeTotal sel src) src ⟨[], d, 0⟩
          (orderedTypes sel)).os
        = (runTypes o none (cumulativeTotal sel src) src ⟨[], d, 0⟩ A).os
          ++ sT.os
          ++ (runTypes o none (cumulativeTotal sel src) src sT.c B).os
      ∧ (runTypes o none (cumulativeTotal sel src) src ⟨[], d, 0⟩
          (orderedTypes sel)).c
        = (runTypes o none (cumulativeTotal sel src) src sT.c B).c
      ∧ (∃ preE, cA.dest.existing = preE ++ d.existing)
      ∧ (∃ postE, (runTypes o none (cumulativeTotal sel src) src sT.c B).c.dest.existing
          = postE ++ sT.c.dest.existing)
      ∧ sT.os.length = (src t).length := by
  refine ⟨_, _, rfl, rfl, ?_⟩
  have hA : (runTypes o none (cumulativeTotal sel src) src ⟨[], d, 0⟩ A).cl = false :=
    (runTypes_full o none (cumulativeTotal sel src) src A ⟨[], d, 0⟩ (fun v _ => rfl)).1
  obtain ⟨h1, h2, h3, h4⟩ := runTypes_append_cl_false o none (cumulativeTotal sel src)
    src A (t :: B) ⟨[], d, 0⟩ hA
  have hsTcl : (procRecs o none t
      (snapshotFor (runTypes o none (cumulativeTotal sel src) src ⟨[], d, 0⟩ A).c.dest t)
      (cumulativeTotal sel src) (src t).length 1
      (runTypes o none (cumulativeTotal sel src) src ⟨[], d, 0⟩ A).c (src t)).cl = false :=
    (procRecs_full o none t _ (cumulativeTotal sel src) (src t).length (src t) 1 _
      (fun k _ => rfl)).1
  have hstep : runTypes o none (cumulativeTotal sel src) src
      (runTypes o none (cumulativeTotal sel src) src ⟨[], d, 0⟩ A).c (t :: B)
      = ⟨(runTypes o none (cumulativeTotal sel src) src
            (procRecs o none t
              (snapshotFor (runTypes o none (cumulativeTotal sel src) src
                ⟨[], d, 0⟩ A).c.dest t)
              (cumulativeTotal sel src) (src t).length 1
              (runTypes o none (cumulativeTotal sel src) src ⟨[], d, 0⟩ A).c
              (src t)).c B).c,
         (runTypes o none (cumulativeTotal sel src) src
            (procRecs o none t
              (snapshotFor (runTypes o none (cumulativeTotal sel src) src
                ⟨[], d, 0⟩ A).c.dest t)
              (cumulativeTotal sel src) (src t).length 1
              (runTypes o none (cumulativeTotal sel src) src ⟨[], d, 0⟩ A).c
              (src t)).c B).cl,
         (procRecs o none t
            (snapshotFor (runTypes o none (cumulativeTotal sel src) src
              ⟨[], d, 0⟩ A).c.dest t)
            (cumulativeTotal sel src) (src t).length 1
            (runTypes o none (cumulativeTotal sel src) src ⟨[], d, 0⟩ A).c
            (src t)).os
          ++ (runTypes o none (cumulativeTotal sel src) src
            (procRecs o none t
              (snapshotFor (runTypes o none (cumulativeTotal sel src) src
                ⟨[], d, 0⟩ A).c.dest t)
              (cumulativeTotal sel src) (src t).length 1
              (runTypes o none (cumulativeTotal sel src) src ⟨[], d, 0⟩ A).c
              (src t)).c B).os,
         (procRecs o none t
            (snapshotFor (runTypes o none (cumulativeTotal sel src) src
              ⟨[], d, 0⟩ A).c.dest t)
            (cumulativeTotal sel src) (src t).length 1
            (runTypes o none (cumulativeTotal sel src) src ⟨[], d, 0⟩ A).c
            (src t)).evs
          ++ (runTypes o none (cumulativeTotal sel src) src
            (procRecs o none t
              (snapshotFor (runTypes o none (cumulativeTotal sel src) src
                ⟨[], d, 0⟩ A).c.dest t)
              (cumulativeTotal sel src) (src t).length 1
              (runTypes o none (cumulativeTotal sel src) src ⟨[], d, 0⟩ A).c
              (src t)).c B).evs⟩ := by
    rw [runTypes]
    simp only [flagSet_none, Bool.false_eq_true, if_false, hsTcl]
  refine ⟨?_, ?_, ?_, ?_, ?_⟩
  · rw [hsplit, h1, hstep, List.append_assoc]
  · rw [hsplit, h3, hstep]
  · obtain ⟨preE, hpreE⟩ := runTypes_existing o none (cumulativeTotal sel src) src A
      ⟨[], d, 0⟩
    exact ⟨preE, hpreE⟩
  · exact runTypes_existing o none (cumulativeTotal sel src) src B _
  · exact (procRecs_full o none t _ (cumulativeTotal sel src) (src t).length (src t) 1 _
      (fun k _ => rfl)).2.1

lemma split_not_mem {t : EntityType} {A B : List EntityType}
    (h : (A ++ t :: B).Nodup) : t ∉ A ∧ t ∉ B := by
  rw [List.nodup_append] at h
  exact ⟨fun hm => h.2.2 hm (List.mem_cons_self t B), (List.nodup_cons.mp h.2.1).1⟩

lemma filter_mid_eq {osA osT osB : List OutcomeEntry} {t : EntityType}
    {A B : List EntityType}
    (hA : ∀ x ∈ osA, x.t ∈ A) (hT : ∀ x ∈ osT, x.t = t) (hB : ∀ x ∈ osB, x.t ∈ B)
    (hnA : t ∉ A) (hnB : t ∉ B) :
    (osA ++ osT ++ osB).filter (fun x => decide (x.t = t)) = osT := by
  rw [List.filter_append, List.filter_append]
  have e1 : osA.filter (fun x => decide (x.t = t)) = [] := by
    rw [List.filter_eq_nil_iff]
    intro x hx hxt
    simp only [decide_eq_true_eq] at hxt
    exact hnA (hxt ▸ hA x hx)
  have e2 : osT.filter (fun x => decide (x.t = t)) = osT := by
    rw [List.filter_eq_self]
    intro x hx
    simp [hT x hx]
  have e3 : osB.filter (fun x => decide (x.t = t)) = [] := by
    rw [List.filter_eq_nil_iff]
    intro x hx hxt
    simp only [decide_eq_true_eq] at hxt
    exact hnB (hxt ▸ hB x hx)
  rw [e1, e2, e3]
  simp


lemma run_seg_filter (o : EntityType → Nat → Bool) (sel : EntityType → Bool)
    (src : EntityType → List MigRecord) (d : DestState)
    (t : EntityType) (A B : List EntityType)
    (hsplit : orderedTypes sel = A ++ t :: B) (hnA : t ∉ A) (hnB : t ∉ B) :
    ∃ snap c1,
      (runMigration sel src d o none).outcomes.filter (fun x => decide (x.t = t))
        = (procRecs o none t snap (cumulativeTotal sel src) (src t).length 1 c1
            (src t)).os
      ∧ snap = snapshotFor c1.dest t
      ∧ (∃ preE, c1.dest.existing = preE ++ d.existing)
      ∧ (∃ postE, (runMigration sel src d o none).dest.existing
          = postE ++ (procRecs o none t snap (cumulativeTotal sel src)
              (src t).length 1 c1 (src t)).c.dest.existing) := by
  obtain ⟨cA, sT, hcA, hsT, hos, hc, hpre, ⟨postE, hpost⟩, hlen⟩ :=
    run_seg o sel src d t A B hsplit
  refine ⟨snapshotFor cA.dest t, cA, ?_, rfl, hpre, postE, ?_⟩
  · have hout : (runMigration sel src d o none).outcomes
        = (runTypes o none (cumulativeTotal sel src) src ⟨[], d, 0⟩
            (orderedTypes sel)).os := rfl
    rw [hout, hos, ← hsT]
    refine filter_mid_eq
      (fun x hx => runTypes_os_mem o none (cumulativeTotal sel src) src A _ x hx)
      (fun x hx => ?_)
      (fun x hx => runTypes_os_mem o none (cumulativeTotal sel src) src B _ x hx)
      hnA hnB
    rw [hsT] at hx
    exact procRecs_os_t o none t (snapshotFor cA.dest t) (cumulativeTotal sel src)
      (src t).length (src t) 1 cA x hx
  · have hdest : (runMigration sel src d o none).dest.existing
        = (runTypes o none (cumulativeTotal sel src) src ⟨[], d, 0⟩
            (orderedTypes sel)).c.dest.existing := rfl
    rw [hdest, hc, hpost, hsT]

/-- C2: running the same migration twice against a destination unchanged
between the runs yields, on the second run, skipped-duplicate for every
record whose outcome was created on the first run (position j within the
per-type outcome segment identifies the record, since both runs process
the same source listing). -/
theorem C2_idempotent_second_run (sel : EntityType → Bool)
    (src : EntityType → List MigRecord) (d0 : DestState)
    (o1 o2 : EntityType → Nat → Bool) (t : EntityType)
    (ht : t ∈ orderedTypes sel) (j : Nat)
    (h1 : j < ((runMigration sel src d0 o1 none).outcomes.filter
        fun x => decide (x.t = t)).length)
    (h2 : j < ((runMigration sel src (runMigration sel src d0 o1 none).dest o2
        none).outcomes.filter fun x => decide (x.t = t)).length)
    (hcr : (((runMigration sel src d0 o1 none).outcomes.filter
        fun x => decide (x.t = t))[j]).status = OutcomeStatus.created) :
    (((runMigration sel src (runMigration sel src d0 o1 none).dest o2
        none).outcomes.filter fun x => decide (x.t = t))[j]).status
      = OutcomeStatus.skipped := by
  obtain ⟨A, B, hsplit⟩ := List.append_of_mem ht
  have hnd := orderedTypes_nodup sel
  rw [hsplit] at hnd
  obtain ⟨hnA, hnB⟩ := split_not_mem hnd
  obtain ⟨snap1, c1, hfil1, hsnap1, ⟨preE1, hpre1⟩, ⟨postE1, hpost1⟩⟩ :=
    run_seg_filter o1 sel src d0 t A B hsplit hnA hnB
  obtain ⟨snap2, c2, hfil2, hsnap2, ⟨preE2, hpre2⟩, ⟨postE2, hpost2⟩⟩ :=
    run_seg_filter o2 sel src (runMigration sel src d0 o1 none).dest t A B hsplit
      hnA hnB
  have hlen1 : (procRecs o1 none t snap1 (cumulativeTotal sel src) (src t).length 1 c1
      (src t)).os.length = (src t).length :=
    (procRecs_full o1 none t snap1 (cumulativeTotal sel src) (src t).length (src t)
      1 c1 (fun k _ => rfl)).2.1
  have h1b : j < (procRecs o1 none t snap1 (cumulativeTotal sel src) (src t).length 1
      c1 (src t)).os.length := hfil1 ▸ h1
  have h2b : j < (procRecs o2 none t snap2 (cumulativeTotal sel src) (src t).length 1
      c2 (src t)).os.length := hfil2 ▸ h2
  have hj : j < (src t).length := hlen1 ▸ h1b
  have hcr1 : ((procRecs o1 none t snap1 (cumulativeTotal sel src) (src t).length 1 c1
      (src t)).os[j]).status = OutcomeStatus.created := by
    rw [← getElem_list_congr hfil1 j h1 h1b]
    exact hcr
  obtain ⟨hj2, hsid1, hskip1, hcreated1⟩ := procRecs_none_get o1 t snap1
    (cumulativeTotal sel src) (src t).length (src t) 1 c1 j hj
  obtain ⟨i, hi_mem⟩ := hcreated1 hcr1
  have hmem1 : (t, (src t)[j].naturalKey, i)
      ∈ (runMigration sel src d0 o1 none).dest.existing := by
    rw [hpost1]
    exact List.mem_append_right _ hi_mem
  have hmem2 : (t, (src t)[j].naturalKey, i) ∈ c2.dest.existing := by
    rw [hpre2]
    exact List.mem_append_right _ hmem1
  have hsnapmem : (lookupKey snap2 ((src t)[j].naturalKey)).isSome := by
    rw [hsnap2]
    exact lookupKey_isSome_of_mem _ _ i (mem_snapshotFor c2.dest t _ i hmem2)
  obtain ⟨hj2b, hsid2, hskip2, hcreated2⟩ := procRecs_none_get o2 t snap2
    (cumulativeTotal sel src) (src t).length (src t) 1 c2 j hj
  have hsk := hskip2.mpr hsnapmem
  rw [getElem_list_congr hfil2 j h2 h2b]
  exact hsk

/-- C4: if cancellation is observed after N of the M records of the k-th
selected type have been processed (with 0 < N < M), the run terminates
Cancelled with exactly N outcomes for that type, zero outcomes for every
subsequent type, no outcome duplicated or lost (the outcome list length is
exactly the prior types' record count plus N), and no already-created
destination record rolled back (the destination listing only grew). -/
theorem C4_cancellation_mid_run (sel : EntityType → Bool)
    (src : EntityType → List MigRecord) (d0 : DestState)
    (oracle : EntityType → Nat → Bool) (k N : Nat)
    (hk : k < (orderedTypes sel).length) (hN1 : 1 ≤ N)
    (hNM : N < (src ((orderedTypes sel)[k])).length) :
    (runMigration sel src d0 oracle
        (some (((((orderedTypes sel).take k).map fun t2 => (src t2).length).sum) + N))).outcome
      = RunOutcome.cancelled
    ∧ (runMigration sel src d0 oracle
        (some (((((orderedTypes sel).take k).map fun t2 => (src t2).length).sum) + N))).totalProcessed
      = ((((orderedTypes sel).take k).map fun t2 => (src t2).length).sum) + N
    ∧ (runMigration sel src d0 oracle
        (some (((((orderedTypes sel).take k).map fun t2 => (src t2).length).sum) + N))).outcomes.length
      = ((((orderedTypes sel).take k).map fun t2 => (src t2).length).sum) + N
    ∧ ((runMigration sel src d0 oracle
        (some (((((orderedTypes sel).take k).map fun t2 => (src t2).length).sum) + N))).outcomes.filter
          fun x => decide (x.t = (orderedTypes sel)[k])).length = N
    ∧ (∀ t2 ∈ (orderedTypes sel).drop (k + 1),
        (runMigration sel src d0 oracle
          (some (((((orderedTypes sel).take k).map fun t2 => (src t2).length).sum) + N))).outcomes.filter
            (fun x => decide (x.t = t2)) = [])
    ∧ ∃ pre, (runMigration sel src d0 oracle
        (some (((((orderedTypes sel).take k).map fun t2 => (src t2).length).sum) + N))).dest.existing
      = pre ++ d0.existing := by
  have hsplit : orderedTypes sel
      = (orderedTypes sel).take k
        ++ (orderedTypes sel)[k] :: (orderedTypes sel).drop (k + 1) := by
    conv_lhs => rw [← List.take_append_drop k (orderedTypes sel)]
    rw [List.drop_eq_getElem_cons hk]
  have hnd := orderedTypes_nodup sel
  rw [hsplit] at hnd
  obtain ⟨hnA, hnB⟩ := split_not_mem hnd
  have hfullA := runTypes_full oracle
    (some (((((orderedTypes sel).take k).map fun t2 => (src t2).length).sum) + N))
    (cumulativeTotal sel src) src ((orderedTypes sel).take k) ⟨[], d0, 0⟩ (by
      intro v hv
      simp only [flagSet, decide_eq_false_iff_not]
      simp only [Ctx.count] at hv
      omega)
  have hbnd : flagSet
      (some (((((orderedTypes sel).take k).map fun t2 => (src t2).length).sum) + N))
      (runTypes oracle
        (some (((((orderedTypes sel).take k).map fun t2 => (src t2).length).sum) + N))
        (cumulativeTotal sel src) src ⟨[], d0, 0⟩
        ((orderedTypes sel).take k)).c.count = false := by
    rw [hfullA.2.2]
    simp only [flagSet, decide_eq_false_iff_not, Ctx.count]
    omega
  have hpart := procRecs_partial oracle
    (some (((((orderedTypes sel).take k).map fun t2 => (src t2).length).sum) + N))
    ((orderedTypes sel)[k])
    (snapshotFor (runTypes oracle
        (some (((((orderedTypes sel).take k).map fun t2 => (src t2).length).sum) + N))
        (cumulativeTotal sel src) src ⟨[], d0, 0⟩
        ((orderedTypes sel).take k)).c.dest ((orderedTypes sel)[k]))
    (cumulativeTotal sel src) (src ((orderedTypes sel)[k])).length
    (src ((orderedTypes sel)[k])) 1
    (runTypes oracle
        (some (((((orderedTypes sel).take k).map fun t2 => (src t2).length).sum) + N))
        (cumulativeTotal sel src) src ⟨[], d0, 0⟩ ((orderedTypes sel).take k)).c
    (((((orderedTypes sel).take k).map fun t2 => (src t2).length).sum) + N)
    rfl
    (by rw [hfullA.2.2]; simp only [Ctx.count]; omega)
    (by rw [hfullA.2.2]; simp only [Ctx.count]; omega)
  obtain ⟨h1, h2, h3, h4⟩ := runTypes_append_cl_false oracle
    (some (((((orderedTypes sel).take k).map fun t2 => (src t2).length).sum) + N))
    (cumulativeTotal sel src) src ((orderedTypes sel).take k)
    ((orderedTypes sel)[k] :: (orderedTypes sel).drop (k + 1)) ⟨[], d0, 0⟩ hfullA.1
  have hstep : runTypes oracle
      (some (((((orderedTypes sel).take k).map fun t2 => (src t2).length).sum) + N))
      (cumulativeTotal sel src) src
      (runTypes oracle
        (some (((((orderedTypes sel).take k).map fun t2 => (src t2).length).sum) + N))
        (cumulativeTotal sel src) src ⟨[], d0, 0⟩ ((orderedTypes sel).take k)).c
      ((orderedTypes sel)[k] :: (orderedTypes sel).drop (k + 1))
      = procRecs oracle
        (some (((((orderedTypes sel).take k).map fun t2 => (src t2).length).sum) + N))
        ((orderedTypes sel)[k])
        (snapshotFor (runTypes oracle
          (some (((((orderedTypes sel).take k).map fun t2 => (src t2).length).sum) + N))
          (cumulativeTotal sel src) src ⟨[], d0, 0⟩
          ((orderedTypes sel).take k)).c.dest ((orderedTypes sel)[k]))
        (cumulativeTotal sel src) (src ((orderedTypes sel)[k])).length 1
        (runTypes oracle
          (some (((((orderedTypes sel).take k).map fun t2 => (src t2).length).sum) + N))
          (cumulativeTotal sel src) src ⟨[], d0, 0⟩ ((orderedTypes sel).take k)).c
        (src ((orderedTypes sel)[k])) := by
    simp only [runTypes, hbnd, Bool.false_eq_true, if_false, hpart.1, if_true]
  have hw : (runMigration sel src d0 oracle
      (some (((((orderedTypes sel).take k).map fun t2 => (src t2).length).sum) + N))).outcomes
      = (runTypes oracle
        (some (((((orderedTypes sel).take k).map fun t2 => (src t2).length).sum) + N))
        (cumulativeTotal sel src) src ⟨[], d0, 0⟩ (orderedTypes sel)).os := rfl
  have hos : (runMigration sel src d0 oracle
      (some (((((orderedTypes sel).take k).map fun t2 => (src t2).length).sum) + N))).outcomes
      = (runTypes oracle
          (some (((((orderedTypes sel).take k).map fun t2 => (src t2).length).sum) + N))
          (cumulativeTotal sel src) src ⟨[], d0, 0⟩ ((orderedTypes sel).take k)).os
        ++ (procRecs oracle
          (some (((((orderedTypes sel).take k).map fun t2 => (src t2).length).sum) + N))
          ((orderedTypes sel)[k])
          (snapshotFor (runTypes oracle
            (some (((((orderedTypes sel).take k).map fun t2 => (src t2).length).sum) + N))
            (cumulativeTotal sel src) src ⟨[], d0, 0⟩
            ((orderedTypes sel).take k)).c.dest ((orderedTypes sel)[k]))
          (cumulativeTotal sel src) (src ((orderedTypes sel)[k])).length 1
          (runTypes oracle
            (some (((((orderedTypes sel).take k).map fun t2 => (src t2).length).sum) + N))
            (cumulativeTotal sel src) src ⟨[], d0, 0⟩ ((orderedTypes sel).take k)).c
          (src ((orderedTypes sel)[k]))).os := by
    rw [hw]
    nth_rewrite 2 [hsplit]
    rw [h1, hstep]
  have hccl : (runTypes oracle
      (some (((((orderedTypes sel).take k).map fun t2 => (src t2).length).sum) + N))
      (cumulativeTotal sel src) src ⟨[], d0, 0⟩ (orderedTypes sel)).cl = true := by
    nth_rewrite 2 [hsplit]
    rw [h4, hstep]
    exact hpart.1
  have hcc : (runTypes oracle
      (some (((((orderedTypes sel).take k).map fun t2 => (src t2).length).sum) + N))
      (cumulativeTotal sel src) src ⟨[], d0, 0⟩ (orderedTypes sel)).c
      = (procRecs oracle
        (some (((((orderedTypes sel).take k).map fun t2 => (src t2).length).sum) + N))
        ((orderedTypes sel)[k])
        (snapshotFor (runTypes oracle
          (some (((((orderedTypes sel).take k).map fun t2 => (src t2).length).sum) + N))
          (cumulativeTotal sel src) src ⟨[], d0, 0⟩
          ((orderedTypes sel).take k)).c.dest ((orderedTypes sel)[k]))
        (cumulativeTotal sel src) (src ((orderedTypes sel)[k])).length 1
        (runTypes oracle
          (some (((((orderedTypes sel).take k).map fun t2 => (src t2).length).sum) + N))
          (cumulativeTotal sel src) src ⟨[], d0, 0⟩ ((orderedTypes sel).take k)).c
        (src ((orderedTypes sel)[k]))).c := by
    nth_rewrite 2 [hsplit]
    rw [h3, hstep]
  refine ⟨?_, ?_, ?_, ?_, ?_, ?_⟩
  · show (if (runTypes oracle _ (cumulativeTotal sel src) src ⟨[], d0, 0⟩
        (orderedTypes sel)).cl then RunOutcome.cancelled else RunOutcome.completed)
      = RunOutcome.cancelled
    rw [hccl]
    rfl
  · show (runTypes oracle _ (cumulativeTotal sel src) src ⟨[], d0, 0⟩
        (orderedTypes sel)).c.count = _
    rw [hcc, hpart.2.2]
  · rw [hos, List.length_append, hfullA.2.1, hpart.2.1, hfullA.2.2]
    simp only [Ctx.count]
    omega
  · rw [hos, List.filter_append]
    have hfA : (runTypes oracle
        (some (((((orderedTypes sel).take k).map fun t2 => (src t2).length).sum) + N))
        (cumulativeTotal sel src) src ⟨[], d0, 0⟩
        ((orderedTypes sel).take k)).os.filter
          (fun x => decide (x.t = (orderedTypes sel)[k])) = [] := by
      rw [List.filter_eq_nil_iff]
      intro x hx hxt
      simp only [decide_eq_true_eq] at hxt
      exact hnA (hxt ▸ runTypes_os_mem oracle _ (cumulativeTotal sel src) src
        ((orderedTypes sel).take k) _ x hx)
    have hfT : (procRecs oracle
        (some (((((orderedTypes sel).take k).map fun t2 => (src t2).length).sum) + N))
        ((orderedTypes sel)[k])
        (snapshotFor (runTypes oracle
          (some (((((orderedTypes sel).take k).map fun t2 => (src t2).length).sum) + N))
          (cumulativeTotal sel src) src ⟨[], d0, 0⟩
          ((orderedTypes sel).take k)).c.dest ((orderedTypes sel)[k]))
        (cumulativeTotal sel src) (src ((orderedTypes sel)[k])).length 1
        (runTypes oracle
          (some (((((orderedTypes sel).take k).map fun t2 => (src t2).length).sum) + N))
          (cumulativeTotal sel src) src ⟨[], d0, 0⟩ ((orderedTypes sel).take k)).c
        (src ((orderedTypes sel)[k]))).os.filter
          (fun x => decide (x.t = (orderedTypes sel)[k]))
        = (procRecs oracle
          (some (((((orderedTypes sel).take k).map fun t2 => (src t2).length).sum) + N))
          ((orderedTypes sel)[k])
          (snapshotFor (runTypes oracle
            (some (((((orderedTypes sel).take k).map fun t2 => (src t2).length).sum) + N))
            (cumulativeTotal sel src) src ⟨[], d0, 0⟩
            ((orderedTypes sel).take k)).c.dest ((orderedTypes sel)[k]))
          (cumulativeTotal sel src) (src ((orderedTypes sel)[k])).length 1
          (runTypes oracle
            (some (((((orderedTypes sel).take k).map fun t2 => (src t2).length).sum) + N))
            (cumulativeTotal sel src) src ⟨[], d0, 0⟩ ((orderedTypes sel).take k)).c
          (src ((orderedTypes sel)[k]))).os := by
      rw [List.filter_eq_self]
      intro x hx
      simp [procRecs_os_t oracle _ ((orderedTypes sel)[k]) _ (cumulativeTotal sel src)
        (src ((orderedTypes sel)[k])).length (src ((orderedTypes sel)[k])) 1 _ x hx]
    rw [hfA, hfT, List.nil_append, hpart.2.1, hfullA.2.2]
    simp only [Ctx.count]
    omega
  · intro t2 ht2
    have hneq : t2 ≠ (orderedTypes sel)[k] := fun he => hnB (he ▸ ht2)
    have hnA2 : t2 ∉ (orderedTypes sel).take k := by
      intro hmem
      rw [List.nodup_append] at hnd
      exact hnd.2.2 hmem (List.mem_cons_of_mem _ ht2)
    rw [hos, List.filter_append]
    have hfA : (runTypes oracle
        (some (((((orderedTypes sel).take k).map fun t3 => (src t3).length).sum) + N))
        (cumulativeTotal sel src) src ⟨[], d0, 0⟩
        ((orderedTypes sel).take k)).os.filter (fun x => decide (x.t = t2)) = [] := by
      rw [List.filter_eq_nil_iff]
      intro x hx hxt
      simp only [decide_eq_true_eq] at hxt
      exact hnA2 (hxt ▸ runTypes_os_mem oracle _ (cumulativeTotal sel src) src
        ((orderedTypes sel).take k) _ x hx)
    have hfT : (procRecs oracle
        (some (((((orderedTypes sel).take k).map fun t3 => (src t3).length).sum) + N))
        ((orderedTypes sel)[k])
        (snapshotFor (runTypes oracle
          (some (((((orderedTypes sel).take k).map fun t3 => (src t3).length).sum) + N))
          (cumulativeTotal sel src) src ⟨[], d0, 0⟩
          ((orderedTypes sel).take k)).c.dest ((orderedTypes sel)[k]))
        (cumulativeTotal sel src) (src ((orderedTypes sel)[k])).length 1
        (runTypes oracle
          (some (((((orderedTypes sel).take k).map fun t3 => (src t3).length).sum) + N))
          (cumulativeTotal sel src) src ⟨[], d0, 0⟩ ((orderedTypes sel).take k)).c
        (src ((orderedTypes sel)[k]))).os.filter (fun x => decide (x.t = t2)) = [] := by
      rw [List.filter_eq_nil_iff]
      intro x hx hxt
      simp only [decide_eq_true_eq] at hxt
      have := procRecs_os_t oracle _ ((orderedTypes sel)[k]) _ (cumulativeTotal sel src)
        (src ((orderedTypes sel)[k])).length (src ((orderedTypes sel)[k])) 1 _ x hx
      exact hneq (hxt ▸ this)
    rw [hfA, hfT, List.nil_append]
  · have hdest : (runMigration sel src d0 oracle
        (some (((((orderedTypes sel).take k).map fun t2 => (src t2).length).sum) + N))).dest
        = (runTypes oracle
          (some (((((orderedTypes sel).take k).map fun t2 => (src t2).length).sum) + N))
          (cumulativeTotal sel src) src ⟨[], d0, 0⟩ (orderedTypes sel)).c.dest := rfl
    obtain ⟨p1, hp1⟩ := procRecs_existing oracle
      (some (((((orderedTypes sel).take k).map fun t2 => (src t2).length).sum) + N))
      ((orderedTypes sel)[k])
      (snapshotFor (runTypes oracle
        (some (((((orderedTypes sel).take k).map fun t2 => (src t2).length).sum) + N))
        (cumulativeTotal sel src) src ⟨[], d0, 0⟩
        ((orderedTypes sel).take k)).c.dest ((orderedTypes sel)[k]))
      (cumulativeTotal sel src) (src ((orderedTypes sel)[k])).length
      (src ((orderedTypes sel)[k])) 1
      (runTypes oracle
        (some (((((orderedTypes sel).take k).map fun t2 => (src t2).length).sum) + N))
        (cumulativeTotal sel src) src ⟨[], d0, 0⟩ ((orderedTypes sel).take k)).c
    obtain ⟨p2, hp2⟩ := runTypes_existing oracle
      (some (((((orderedTypes sel).take k).map fun t2 => (src t2).length).sum) + N))
      (cumulativeTotal sel src) src ((orderedTypes sel).take k) ⟨[], d0, 0⟩
    refine ⟨p1 ++ p2, ?_⟩
    rw [hdest, hcc, hp1, hp2, List.append_assoc]

lemma runTypes_append_cl_true (o : EntityType → Nat → Bool) (cAt : Option Nat)
    (ctot : Nat) (src : EntityType → List MigRecord) :
    ∀ (A B : List EntityType) (c : Ctx),
    (runTypes o cAt ctot src c A).cl = true →
    runTypes o cAt ctot src c (A ++ B) = runTypes o cAt ctot src c A := by
  intro A
  induction A with
  | nil => intro B c h; simp [runTypes] at h
  | cons a A ih =>
      intro B c h
      simp only [runTypes, List.cons_append] at h ⊢
      split at h
      · next hf => simp only [hf, if_true]
      · next hf =>
          simp only [hf, Bool.false_eq_true, if_false]
          split at h
          · next hs => simp only [hs, if_true]
          · next hs =>
              simp only [hs, Bool.false_eq_true, if_false] at h ⊢
              simp only [List.append_eq]
              rw [ih B _ h]

lemma getElem_mem_list {α : Type} (l : List α) (i : Nat) (hi : i < l.length) :
    l[i] ∈ l :=
  List.mem_iff_getElem.mpr ⟨i, hi, rfl⟩

lemma getElem_idx_congr {α : Type} {l : List α} {i j : Nat} (h : i = j)
    (hi : i < l.length) (hj : j < l.length) : l[i] = l[j] := by
  subst h
  rfl

lemma getElem_append_left_h {α : Type} (l1 l2 : List α) (i : Nat)
    (hi : i < l1.length) (h : i < (l1 ++ l2).length) : (l1 ++ l2)[i] = l1[i] := by
  induction l1 generalizing i with
  | nil => simp at hi
  | cons a l1 ih =>
      match i with
      | 0 => rfl
      | i + 1 =>
          simp only [List.cons_append, List.getElem_cons_succ]
          exact ih i (by simpa using hi)
            (by simp only [List.cons_append, List.length_cons] at h; omega)

lemma getElem_append_right_h {α : Type} (l1 l2 : List α) (i : Nat)
    (h1 : l1.length ≤ i) (h : i < (l1 ++ l2).length)
    (hb : i - l1.length < l2.length) : (l1 ++ l2)[i] = l2[i - l1.length] := by
  induction l1 generalizing i with
  | nil => simp
  | cons a l1 ih =>
      match i with
      | 0 => simp at h1
      | i + 1 =>
          simp only [List.cons_append, List.getElem_cons_succ]
          have hstep := ih i (by simpa using h1)
            (by simp only [List.cons_append, List.length_cons] at h; omega)
            (by simp only [List.length_cons] at hb; simpa using hb)
          rw [hstep]
          exact getElem_idx_congr (by simp only [List.length_cons]; omega)
            (by simp only [List.length_cons] at hb; simpa using hb)
            (by simp only [List.length_cons] at hb ⊢; omega)

/-- C1: during every migration run, for selected types T and T2 with
dependencyRank T < dependencyRank T2, every record of T is fully processed
(its outcome event appears earlier in the trace, and for a created or
skipped-duplicate outcome its mapping is resolvable in the Identifier Map
used) before any record of T2 has its foreign keys rewritten. -/
theorem C1_dependency_order (sel : EntityType → Bool)
    (src : EntityType → List MigRecord) (d0 : DestState)
    (oracle : EntityType → Nat → Bool) (cancelAt : Option Nat)
    (T T2 : EntityType)
    (hT : T ∈ orderedTypes sel) (hT2 : T2 ∈ orderedTypes sel)
    (hrank : dependencyRank T < dependencyRank T2)
    (j : Nat) (hj : j < (runMigration sel src d0 oracle cancelAt).trace.length)
    (sid : Nat) (m : IdMap)
    (hev : (runMigration sel src d0 oracle cancelAt).trace[j] = MigEv.rewritten T2 sid m)
    (r : MigRecord) (hr : r ∈ src T) :
    ∃ i, ∃ hi : i < (runMigration sel src d0 oracle cancelAt).trace.length,
      i < j ∧ ∃ s, (runMigration sel src d0 oracle cancelAt).trace[i] = MigEv.processed T r.sid s
        ∧ ((s = OutcomeStatus.created ∨ s = OutcomeStatus.skipped) →
            (resolveId m T r.sid).isSome) := by
  obtain ⟨A, B, hsplit⟩ := List.append_of_mem hT
  have hsorted := orderedTypes_sorted sel
  rw [hsplit] at hsorted
  have hT2A : T2 ∉ A := by
    intro hmem
    have := (List.pairwise_append.mp hsorted).2.2 T2 hmem T (List.mem_cons_self _ _)
    omega
  have hT2T : T2 ≠ T := by
    intro he
    rw [he] at hrank
    omega
  have hmemtr : MigEv.rewritten T2 sid m ∈ (runMigration sel src d0 oracle cancelAt).trace := by
    rw [← hev]
    exact getElem_mem_list _ j hj
  have hw : (runMigration sel src d0 oracle cancelAt).trace
      = (runTypes oracle cancelAt (cumulativeTotal sel src) src ⟨[], d0, 0⟩
          (orderedTypes sel)).evs := rfl
  cases hAcl : (runTypes oracle cancelAt (cumulativeTotal sel src) src ⟨[], d0, 0⟩ A).cl with
  | true =>
      exfalso
      rw [hw, hsplit,
        runTypes_append_cl_true oracle cancelAt (cumulativeTotal sel src) src A
          (T :: B) ⟨[], d0, 0⟩ hAcl] at hmemtr
      have := runTypes_etype_mem oracle cancelAt (cumulativeTotal sel src) src A
        ⟨[], d0, 0⟩ _ hmemtr
      simp only [MigEv.etype] at this
      exact hT2A this
  | false =>
      obtain ⟨h1, h2, h3, h4⟩ := runTypes_append_cl_false oracle cancelAt
        (cumulativeTotal sel src) src A (T :: B) ⟨[], d0, 0⟩ hAcl
      cases hfT : flagSet cancelAt (runTypes oracle cancelAt (cumulativeTotal sel src) src ⟨[], d0, 0⟩ A).c.count with
      | true =>
          exfalso
          have hstep : runTypes oracle cancelAt (cumulativeTotal sel src) src
              (runTypes oracle cancelAt (cumulativeTotal sel src) src ⟨[], d0, 0⟩ A).c (T :: B) = ⟨(runTypes oracle cancelAt (cumulativeTotal sel src) src ⟨[], d0, 0⟩ A).c, true, [], []⟩ := by
            simp only [runTypes, hfT, if_true]
          rw [hw, hsplit, h2, hstep, List.append_nil] at hmemtr
          have := runTypes_etype_mem oracle cancelAt (cumulativeTotal sel src) src A
            ⟨[], d0, 0⟩ _ hmemtr
          simp only [MigEv.etype] at this
          exact hT2A this
      | false =>
          cases hsTcl : (procRecs oracle cancelAt T (snapshotFor (runTypes oracle cancelAt (cumulativeTotal sel src) src ⟨[], d0, 0⟩ A).c.dest T) (cumulativeTotal sel src)
      (src T).length 1 (runTypes oracle cancelAt (cumulativeTotal sel src) src ⟨[], d0, 0⟩ A).c (src T)).cl with
          | true =>
              exfalso
              have hstep : runTypes oracle cancelAt (cumulativeTotal sel src) src
                  (runTypes oracle cancelAt (cumulativeTotal sel src) src ⟨[], d0, 0⟩ A).c (T :: B) = (procRecs oracle cancelAt T (snapshotFor (runTypes oracle cancelAt (cumulativeTotal sel src) src ⟨[], d0, 0⟩ A).c.dest T) (cumulativeTotal sel src)
      (src T).length 1 (runTypes oracle cancelAt (cumulativeTotal sel src) src ⟨[], d0, 0⟩ A).c (src T)) := by
                simp only [runTypes, hfT, Bool.false_eq_true, if_false, hsTcl,
                  if_true]
              rw [hw, hsplit, h2, hstep] at hmemtr
              rcases List.mem_append.mp hmemtr with hm | hm
              · have := runTypes_etype_mem oracle cancelAt (cumulativeTotal sel src)
                  src A ⟨[], d0, 0⟩ _ hm
                simp only [MigEv.etype] at this
                exact hT2A this
              · have := procRecs_etype oracle cancelAt T (snapshotFor (runTypes oracle cancelAt (cumulativeTotal sel src) src ⟨[], d0, 0⟩ A).c.dest T)
                  (cumulativeTotal sel src) (src T).length (src T) 1 (runTypes oracle cancelAt (cumulativeTotal sel src) src ⟨[], d0, 0⟩ A).c _ hm
                simp only [MigEv.etype] at this
                exact hT2T this
          | false =>
              have hstep : runTypes oracle cancelAt (cumulativeTotal sel src) src
                  (runTypes oracle cancelAt (cumulativeTotal sel src) src ⟨[], d0, 0⟩ A).c (T :: B)
                  = ⟨(runTypes oracle cancelAt (cumulativeTotal sel src) src (procRecs oracle cancelAt T (snapshotFor (runTypes oracle cancelAt (cumulativeTotal sel src) src ⟨[], d0, 0⟩ A).c.dest T) (cumulativeTotal sel src)
      (src T).length 1 (runTypes oracle cancelAt (cumulativeTotal sel src) src ⟨[], d0, 0⟩ A).c (src T)).c B).c, (runTypes oracle cancelAt (cumulativeTotal sel src) src (procRecs oracle cancelAt T (snapshotFor (runTypes oracle cancelAt (cumulativeTotal sel src) src ⟨[], d0, 0⟩ A).c.dest T) (cumulativeTotal sel src)
      (src T).length 1 (runTypes oracle cancelAt (cumulativeTotal sel src) src ⟨[], d0, 0⟩ A).c (src T)).c B).cl, (procRecs oracle cancelAt T (snapshotFor (runTypes oracle cancelAt (cumulativeTotal sel src) src ⟨[], d0, 0⟩ A).c.dest T) (cumulativeTotal sel src)
      (src T).length 1 (runTypes oracle cancelAt (cumulativeTotal sel src) src ⟨[], d0, 0⟩ A).c (src T)).os ++ (runTypes oracle cancelAt (cumulativeTotal sel src) src (procRecs oracle cancelAt T (snapshotFor (runTypes oracle cancelAt (cumulativeTotal sel src) src ⟨[], d0, 0⟩ A).c.dest T) (cumulativeTotal sel src)
      (src T).length 1 (runTypes oracle cancelAt (cumulativeTotal sel src) src ⟨[], d0, 0⟩ A).c (src T)).c B).os, (procRecs oracle cancelAt T (snapshotFor (runTypes oracle cancelAt (cumulativeTotal sel src) src ⟨[], d0, 0⟩ A).c.dest T) (cumulativeTotal sel src)
      (src T).length 1 (runTypes oracle cancelAt (cumulativeTotal sel src) src ⟨[], d0, 0⟩ A).c (src T)).evs ++ (runTypes oracle cancelAt (cumulativeTotal sel src) src (procRecs oracle cancelAt T (snapshotFor (runTypes oracle cancelAt (cumulativeTotal sel src) src ⟨[], d0, 0⟩ A).c.dest T) (cumulativeTotal sel src)
      (src T).length 1 (runTypes oracle cancelAt (cumulativeTotal sel src) src ⟨[], d0, 0⟩ A).c (src T)).c B).evs⟩ := by
                simp only [runTypes, hfT, Bool.false_eq_true, if_false, hsTcl]
              have htr : (runMigration sel src d0 oracle cancelAt).trace = (runTypes oracle cancelAt (cumulativeTotal sel src) src ⟨[], d0, 0⟩ A).evs ++ ((procRecs oracle cancelAt T (snapshotFor (runTypes oracle cancelAt (cumulativeTotal sel src) src ⟨[], d0, 0⟩ A).c.dest T) (cumulativeTotal sel src)
      (src T).length 1 (runTypes oracle cancelAt (cumulativeTotal sel src) src ⟨[], d0, 0⟩ A).c (src T)).evs ++ (runTypes oracle cancelAt (cumulativeTotal sel src) src (procRecs oracle cancelAt T (snapshotFor (runTypes oracle cancelAt (cumulativeTotal sel src) src ⟨[], d0, 0⟩ A).c.dest T) (cumulativeTotal sel src)
      (src T).length 1 (runTypes oracle cancelAt (cumulativeTotal sel src) src ⟨[], d0, 0⟩ A).c (src T)).c B).evs) := by
                rw [hw, hsplit, h2, hstep]
              have htr2 : (runMigration sel src d0 oracle cancelAt).trace = ((runTypes oracle cancelAt (cumulativeTotal sel src) src ⟨[], d0, 0⟩ A).evs ++ (procRecs oracle cancelAt T (snapshotFor (runTypes oracle cancelAt (cumulativeTotal sel src) src ⟨[], d0, 0⟩ A).c.dest T) (cumulativeTotal sel src)
      (src T).length 1 (runTypes oracle cancelAt (cumulativeTotal sel src) src ⟨[], d0, 0⟩ A).c (src T)).evs) ++ (runTypes oracle cancelAt (cumulativeTotal sel src) src (procRecs oracle cancelAt T (snapshotFor (runTypes oracle cancelAt (cumulativeTotal sel src) src ⟨[], d0, 0⟩ A).c.dest T) (cumulativeTotal sel src)
      (src T).length 1 (runTypes oracle cancelAt (cumulativeTotal sel src) src ⟨[], d0, 0⟩ A).c (src T)).c B).evs := by
                rw [htr, List.append_assoc]
              have hlentr : (runMigration sel src d0 oracle cancelAt).trace.length
                  = (runTypes oracle cancelAt (cumulativeTotal sel src) src ⟨[], d0, 0⟩ A).evs.length + ((procRecs oracle cancelAt T (snapshotFor (runTypes oracle cancelAt (cumulativeTotal sel src) src ⟨[], d0, 0⟩ A).c.dest T) (cumulativeTotal sel src)
      (src T).length 1 (runTypes oracle cancelAt (cumulativeTotal sel src) src ⟨[], d0, 0⟩ A).c (src T)).evs.length + (runTypes oracle cancelAt (cumulativeTotal sel src) src (procRecs oracle cancelAt T (snapshotFor (runTypes oracle cancelAt (cumulativeTotal sel src) src ⟨[], d0, 0⟩ A).c.dest T) (cumulativeTotal sel src)
      (src T).length 1 (runTypes oracle cancelAt (cumulativeTotal sel src) src ⟨[], d0, 0⟩ A).c (src T)).c B).evs.length) := by
                rw [htr]
                simp [List.length_append]
              have hjge : (runTypes oracle cancelAt (cumulativeTotal sel src) src ⟨[], d0, 0⟩ A).evs.length + (procRecs oracle cancelAt T (snapshotFor (runTypes oracle cancelAt (cumulativeTotal sel src) src ⟨[], d0, 0⟩ A).c.dest T) (cumulativeTotal sel src)
      (src T).length 1 (runTypes oracle cancelAt (cumulativeTotal sel src) src ⟨[], d0, 0⟩ A).c (src T)).evs.length ≤ j := by
                by_contra hlt
                push_neg at hlt
                have hjlt : j < ((runTypes oracle cancelAt (cumulativeTotal sel src) src ⟨[], d0, 0⟩ A).evs ++ (procRecs oracle cancelAt T (snapshotFor (runTypes oracle cancelAt (cumulativeTotal sel src) src ⟨[], d0, 0⟩ A).c.dest T) (cumulativeTotal sel src)
      (src T).length 1 (runTypes oracle cancelAt (cumulativeTotal sel src) src ⟨[], d0, 0⟩ A).c (src T)).evs).length := by
                  rw [List.length_append]
                  omega
                have hjlt2 : j < (((runTypes oracle cancelAt (cumulativeTotal sel src) src ⟨[], d0, 0⟩ A).evs ++ (procRecs oracle cancelAt T (snapshotFor (runTypes oracle cancelAt (cumulativeTotal sel src) src ⟨[], d0, 0⟩ A).c.dest T) (cumulativeTotal sel src)
      (src T).length 1 (runTypes oracle cancelAt (cumulativeTotal sel src) src ⟨[], d0, 0⟩ A).c (src T)).evs) ++ (runTypes oracle cancelAt (cumulativeTotal sel src) src (procRecs oracle cancelAt T (snapshotFor (runTypes oracle cancelAt (cumulativeTotal sel src) src ⟨[], d0, 0⟩ A).c.dest T) (cumulativeTotal sel src)
      (src T).length 1 (runTypes oracle cancelAt (cumulativeTotal sel src) src ⟨[], d0, 0⟩ A).c (src T)).c B).evs).length :=
                  htr2 ▸ hj
                have he : (runMigration sel src d0 oracle cancelAt).trace[j] = ((runTypes oracle cancelAt (cumulativeTotal sel src) src ⟨[], d0, 0⟩ A).evs ++ (procRecs oracle cancelAt T (snapshotFor (runTypes oracle cancelAt (cumulativeTotal sel src) src ⟨[], d0, 0⟩ A).c.dest T) (cumulativeTotal sel src)
      (src T).length 1 (runTypes oracle cancelAt (cumulativeTotal sel src) src ⟨[], d0, 0⟩ A).c (src T)).evs)[j] := by
                  rw [getElem_list_congr htr2 j hj hjlt2]
                  exact getElem_append_left_h _ _ j hjlt hjlt2
                have hmem : MigEv.rewritten T2 sid m ∈ ((runTypes oracle cancelAt (cumulativeTotal sel src) src ⟨[], d0, 0⟩ A).evs ++ (procRecs oracle cancelAt T (snapshotFor (runTypes oracle cancelAt (cumulativeTotal sel src) src ⟨[], d0, 0⟩ A).c.dest T) (cumulativeTotal sel src)
      (src T).length 1 (runTypes oracle cancelAt (cumulativeTotal sel src) src ⟨[], d0, 0⟩ A).c (src T)).evs) := by
                  rw [← hev, he]
                  exact getElem_mem_list _ j hjlt
                rcases List.mem_append.mp hmem with hm | hm
                · have := runTypes_etype_mem oracle cancelAt (cumulativeTotal sel src)
                    src A ⟨[], d0, 0⟩ _ hm
                  simp only [MigEv.etype] at this
                  exact hT2A this
                · have := procRecs_etype oracle cancelAt T (snapshotFor (runTypes oracle cancelAt (cumulativeTotal sel src) src ⟨[], d0, 0⟩ A).c.dest T)
                    (cumulativeTotal sel src) (src T).length (src T) 1 (runTypes oracle cancelAt (cumulativeTotal sel src) src ⟨[], d0, 0⟩ A).c _ hm
                  simp only [MigEv.etype] at this
                  exact hT2T this
              obtain ⟨s, hsmem, hsmap⟩ := procRecs_cl_false_processed oracle cancelAt
                T (snapshotFor (runTypes oracle cancelAt (cumulativeTotal sel src) src ⟨[], d0, 0⟩ A).c.dest T) (cumulativeTotal sel src) (src T).length
                (src T) 1 (runTypes oracle cancelAt (cumulativeTotal sel src) src ⟨[], d0, 0⟩ A).c hsTcl r hr
              obtain ⟨kk, hkk, hkkeq⟩ := List.mem_iff_getElem.mp hsmem
              refine ⟨(runTypes oracle cancelAt (cumulativeTotal sel src) src ⟨[], d0, 0⟩ A).evs.length + kk, by omega, by omega, s, ?_, ?_⟩
              · have hblen : (runTypes oracle cancelAt (cumulativeTotal sel src) src ⟨[], d0, 0⟩ A).evs.length + kk < (runMigration sel src d0 oracle cancelAt).trace.length := by omega
                have hi2 : (runTypes oracle cancelAt (cumulativeTotal sel src) src ⟨[], d0, 0⟩ A).evs.length + kk
                    < ((runTypes oracle cancelAt (cumulativeTotal sel src) src ⟨[], d0, 0⟩ A).evs ++ ((procRecs oracle cancelAt T (snapshotFor (runTypes oracle cancelAt (cumulativeTotal sel src) src ⟨[], d0, 0⟩ A).c.dest T) (cumulativeTotal sel src)
      (src T).length 1 (runTypes oracle cancelAt (cumulativeTotal sel src) src ⟨[], d0, 0⟩ A).c (src T)).evs ++ (runTypes oracle cancelAt (cumulativeTotal sel src) src (procRecs oracle cancelAt T (snapshotFor (runTypes oracle cancelAt (cumulativeTotal sel src) src ⟨[], d0, 0⟩ A).c.dest T) (cumulativeTotal sel src)
      (src T).length 1 (runTypes oracle cancelAt (cumulativeTotal sel src) src ⟨[], d0, 0⟩ A).c (src T)).c B).evs)).length := htr ▸ hblen
                rw [getElem_list_congr htr ((runTypes oracle cancelAt (cumulativeTotal sel src) src ⟨[], d0, 0⟩ A).evs.length + kk) hblen hi2]
                rw [getElem_append_right_h (runTypes oracle cancelAt (cumulativeTotal sel src) src ⟨[], d0, 0⟩ A).evs ((procRecs oracle cancelAt T (snapshotFor (runTypes oracle cancelAt (cumulativeTotal sel src) src ⟨[], d0, 0⟩ A).c.dest T) (cumulativeTotal sel src)
      (src T).length 1 (runTypes oracle cancelAt (cumulativeTotal sel src) src ⟨[], d0, 0⟩ A).c (src T)).evs ++ (runTypes oracle cancelAt (cumulativeTotal sel src) src (procRecs oracle cancelAt T (snapshotFor (runTypes oracle cancelAt (cumulativeTotal sel src) src ⟨[], d0, 0⟩ A).c.dest T) (cumulativeTotal sel src)
      (src T).length 1 (runTypes oracle cancelAt (cumulativeTotal sel src) src ⟨[], d0, 0⟩ A).c (src T)).c B).evs)
                  ((runTypes oracle cancelAt (cumulativeTotal sel src) src ⟨[], d0, 0⟩ A).evs.length + kk) (by omega) hi2
                  (by rw [List.length_append]; omega)]
                rw [getElem_idx_congr
                  (show (runTypes oracle cancelAt (cumulativeTotal sel src) src ⟨[], d0, 0⟩ A).evs.length + kk - (runTypes oracle cancelAt (cumulativeTotal sel src) src ⟨[], d0, 0⟩ A).evs.length = kk by omega)
                  (by rw [List.length_append]; omega)
                  (by rw [List.length_append]; omega)]
                rw [getElem_append_left_h (procRecs oracle cancelAt T (snapshotFor (runTypes oracle cancelAt (cumulativeTotal sel src) src ⟨[], d0, 0⟩ A).c.dest T) (cumulativeTotal sel src)
      (src T).length 1 (runTypes oracle cancelAt (cumulativeTotal sel src) src ⟨[], d0, 0⟩ A).c (src T)).evs (runTypes oracle cancelAt (cumulativeTotal sel src) src (procRecs oracle cancelAt T (snapshotFor (runTypes oracle cancelAt (cumulativeTotal sel src) src ⟨[], d0, 0⟩ A).c.dest T) (cumulativeTotal sel src)
      (src T).length 1 (runTypes oracle cancelAt (cumulativeTotal sel src) src ⟨[], d0, 0⟩ A).c (src T)).c B).evs kk hkk
                  (by rw [List.length_append]; omega)]
                exact hkkeq
              · intro hs
                have hge2 : ((runTypes oracle cancelAt (cumulativeTotal sel src) src ⟨[], d0, 0⟩ A).evs ++ (procRecs oracle cancelAt T (snapshotFor (runTypes oracle cancelAt (cumulativeTotal sel src) src ⟨[], d0, 0⟩ A).c.dest T) (cumulativeTotal sel src)
      (src T).length 1 (runTypes oracle cancelAt (cumulativeTotal sel src) src ⟨[], d0, 0⟩ A).c (src T)).evs).length ≤ j := by
                  rw [List.length_append]
                  omega
                have hjlt2 : j < (((runTypes oracle cancelAt (cumulativeTotal sel src) src ⟨[], d0, 0⟩ A).evs ++ (procRecs oracle cancelAt T (snapshotFor (runTypes oracle cancelAt (cumulativeTotal sel src) src ⟨[], d0, 0⟩ A).c.dest T) (cumulativeTotal sel src)
      (src T).length 1 (runTypes oracle cancelAt (cumulativeTotal sel src) src ⟨[], d0, 0⟩ A).c (src T)).evs) ++ (runTypes oracle cancelAt (cumulativeTotal sel src) src (procRecs oracle cancelAt T (snapshotFor (runTypes oracle cancelAt (cumulativeTotal sel src) src ⟨[], d0, 0⟩ A).c.dest T) (cumulativeTotal sel src)
      (src T).length 1 (runTypes oracle cancelAt (cumulativeTotal sel src) src ⟨[], d0, 0⟩ A).c (src T)).c B).evs).length :=
                  htr2 ▸ hj
                have hbB : j - ((runTypes oracle cancelAt (cumulativeTotal sel src) src ⟨[], d0, 0⟩ A).evs ++ (procRecs oracle cancelAt T (snapshotFor (runTypes oracle cancelAt (cumulativeTotal sel src) src ⟨[], d0, 0⟩ A).c.dest T) (cumulativeTotal sel src)
      (src T).length 1 (runTypes oracle cancelAt (cumulativeTotal sel src) src ⟨[], d0, 0⟩ A).c (src T)).evs).length < (runTypes oracle cancelAt (cumulativeTotal sel src) src (procRecs oracle cancelAt T (snapshotFor (runTypes oracle cancelAt (cumulativeTotal sel src) src ⟨[], d0, 0⟩ A).c.dest T) (cumulativeTotal sel src)
      (src T).length 1 (runTypes oracle cancelAt (cumulativeTotal sel src) src ⟨[], d0, 0⟩ A).c (src T)).c B).evs.length := by
                  rw [List.length_append]
                  omega
                have he : (runMigration sel src d0 oracle cancelAt).trace[j]
                    = (runTypes oracle cancelAt (cumulativeTotal sel src) src (procRecs oracle cancelAt T (snapshotFor (runTypes oracle cancelAt (cumulativeTotal sel src) src ⟨[], d0, 0⟩ A).c.dest T) (cumulativeTotal sel src)
      (src T).length 1 (runTypes oracle cancelAt (cumulativeTotal sel src) src ⟨[], d0, 0⟩ A).c (src T)).c B).evs[j - ((runTypes oracle cancelAt (cumulativeTotal sel src) src ⟨[], d0, 0⟩ A).evs ++ (procRecs oracle cancelAt T (snapshotFor (runTypes oracle cancelAt (cumulativeTotal sel src) src ⟨[], d0, 0⟩ A).c.dest T) (cumulativeTotal sel src)
      (src T).length 1 (runTypes oracle cancelAt (cumulativeTotal sel src) src ⟨[], d0, 0⟩ A).c (src T)).evs).length] := by
                  rw [getElem_list_congr htr2 j hj hjlt2]
                  exact getElem_append_right_h _ _ j hge2 hjlt2 hbB
                have hmemB : MigEv.rewritten T2 sid m ∈ (runTypes oracle cancelAt (cumulativeTotal sel src) src (procRecs oracle cancelAt T (snapshotFor (runTypes oracle cancelAt (cumulativeTotal sel src) src ⟨[], d0, 0⟩ A).c.dest T) (cumulativeTotal sel src)
      (src T).length 1 (runTypes oracle cancelAt (cumulativeTotal sel src) src ⟨[], d0, 0⟩ A).c (src T)).c B).evs := by
                  rw [← hev, he]
                  exact getElem_mem_list _ _ hbB
                obtain ⟨pre, hpre⟩ := runTypes_rewritten_map oracle cancelAt
                  (cumulativeTotal sel src) src B (procRecs oracle cancelAt T (snapshotFor (runTypes oracle cancelAt (cumulativeTotal sel src) src ⟨[], d0, 0⟩ A).c.dest T) (cumulativeTotal sel src)
      (src T).length 1 (runTypes oracle cancelAt (cumulativeTotal sel src) src ⟨[], d0, 0⟩ A).c (src T)).c T2 sid m hmemB
                rw [hpre]
                exact resolveId_append_isSome pre _ T r.sid (hsmap hs)

theorem C1_dependency_order_witness :
    ∃ i, ∃ hi : i < (runMigration
        (fun t => decide (t = EntityType.customer ∨ t = EntityType.site))
        (fun t => if t = EntityType.customer then [⟨1, "c", []⟩]
          else if t = EntityType.site then [⟨2, "s", []⟩] else [])
        ⟨[], 0⟩ (fun _ _ => false) none).trace.length,
      i < 3 ∧ ∃ s, (runMigration
          (fun t => decide (t = EntityType.customer ∨ t = EntityType.site))
          (fun t => if t = EntityType.customer then [⟨1, "c", []⟩]
            else if t = EntityType.site then [⟨2, "s", []⟩] else [])
          ⟨[], 0⟩ (fun _ _ => false) none).trace[i]
          = MigEv.processed EntityType.customer (⟨1, "c", []⟩ : MigRecord).sid s
        ∧ ((s = OutcomeStatus.created ∨ s = OutcomeStatus.skipped) →
            (resolveId [(EntityType.customer, 1, 0)] EntityType.customer
              (⟨1, "c", []⟩ : MigRecord).sid).isSome) :=
  C1_dependency_order
    (fun t => decide (t = EntityType.customer ∨ t = EntityType.site))
    (fun t => if t = EntityType.customer then [⟨1, "c", []⟩]
      else if t = EntityType.site then [⟨2, "s", []⟩] else [])
    ⟨[], 0⟩ (fun _ _ => false) none EntityType.customer EntityType.site
    (by decide) (by decide) (by decide) 3 (by decide) 2
    [(EntityType.customer, 1, 0)] rfl ⟨1, "c", []⟩ (by decide)

theorem C2_idempotent_witness :
    (((runMigration (fun t => decide (t = EntityType.customer))
        (fun t => if t = EntityType.customer then [⟨1, "a", []⟩] else [])
        (runMigration (fun t => decide (t = EntityType.customer))
          (fun t => if t = EntityType.customer then [⟨1, "a", []⟩] else [])
          ⟨[], 0⟩ (fun _ _ => false) none).dest
        (fun _ _ => false) none).outcomes.filter
        fun x => decide (x.t = EntityType.customer)).get ⟨0, by decide⟩).status
      = OutcomeStatus.skipped :=
  C2_idempotent_second_run (fun t => decide (t = EntityType.customer))
    (fun t => if t = EntityType.customer then [⟨1, "a", []⟩] else [])
    ⟨[], 0⟩ (fun _ _ => false) (fun _ _ => false) EntityType.customer
    (by decide) 0 (by decide) (by decide) (by rfl)

theorem C4_cancellation_witness :
    (runMigration (fun t => decide (t = EntityType.customer))
      (fun t => if t = EntityType.customer then [⟨1, "a", []⟩, ⟨2, "b", []⟩] else [])
      ⟨[], 0⟩ (fun _ _ => false) (some 1)).outcome = RunOutcome.cancelled
    ∧ (runMigration (fun t => decide (t = EntityType.customer))
      (fun t => if t = EntityType.customer then [⟨1, "a", []⟩, ⟨2, "b", []⟩] else [])
      ⟨[], 0⟩ (fun _ _ => false) (some 1)).totalProcessed = 1
    ∧ ((runMigration (fun t => decide (t = EntityType.customer))
      (fun t => if t = EntityType.customer then [⟨1, "a", []⟩, ⟨2, "b", []⟩] else [])
      ⟨[], 0⟩ (fun _ _ => false) (some 1)).outcomes.filter
        fun x => decide (x.t = EntityType.customer)).length = 1 := by
  have h := C4_cancellation_mid_run (fun t => decide (t = EntityType.customer))
    (fun t => if t = EntityType.customer then [⟨1, "a", []⟩, ⟨2, "b", []⟩] else [])
    ⟨[], 0⟩ (fun _ _ => false) 0 1 (by decide) (by decide) (by decide)
  exact ⟨h.1, h.2.1, h.2.2.2.1⟩

theorem C8_progress_percent_witness :
    0 ≤ (⟨"Customer", "created", clampPercent 1 1, 1, 1⟩ : ProgressUpdate).percent
    ∧ (⟨"Customer", "created", clampPercent 1 1, 1, 1⟩ : ProgressUpdate).percent ≤ 100
    ∧ ∃ cp, (⟨"Customer", "created", clampPercent 1 1, 1, 1⟩ : ProgressUpdate).percent
        = clampPercent cp (cumulativeTotal (fun t => decide (t = EntityType.customer))
            (fun t => if t = EntityType.customer then [⟨1, "a", []⟩] else [])) :=
  C8_progress_percent_range (fun t => decide (t = EntityType.customer))
    (fun t => if t = EntityType.customer then [⟨1, "a", []⟩] else [])
    ⟨[], 0⟩ (fun _ _ => false) none EntityType.customer
    ⟨"Customer", "created", clampPercent 1 1, 1, 1⟩
    (List.mem_iff_getElem.mpr ⟨2, by decide, rfl⟩)
